import Mathlib

/-!
Verification of the Layer Classification & State Reconciliation Engine of
maplibre-gl-layer-control.

The definitions below are a shallow embedding of the TypeScript sources:
  * `src/lib/utils/layerUtils.ts` (opacity property mapping),
  * `src/lib/core/CustomLayerRegistry.ts` (adapter registry),
  * `src/lib/core/LayerControl.ts` (classification, reconciliation,
    mutation guard, background aggregate, tombstones).

Host-map reads (layout/paint properties, layer list) are modelled as fields
of an environment record capturing one fixed snapshot of the live map.
Opacity values are modelled as rationals; the JavaScript store object is
modelled as an insertion-ordered association list.
-/

namespace LayerControlSpec

/-- `LayerState` from `types.ts`: the per-layer record held in the store. -/
structure LayerEntry where
  visible : Bool
  opacity : Rat
  name : String
  isCustomLayer : Bool := false
  customLayerType : Option String := none
deriving DecidableEq, Repr

/-- A layer of the host map style: id, type and optional source id. -/
structure Layer where
  id : String
  type : String
  source : Option String := none
deriving DecidableEq, Repr

/-! ### The layer-state store

JavaScript object semantics: assignment to an existing key updates it in
place (keeping its position); assignment to a fresh key appends; `delete`
removes the key. -/

/-- Look up a key in the insertion-ordered store. -/
def storeLookup (st : List (String × LayerEntry)) (id : String) : Option LayerEntry :=
  match st with
  | [] => none
  | (k, v) :: rest => if k = id then some v else storeLookup rest id

/-- JS object assignment: update in place if present, else append. -/
def storeSet (st : List (String × LayerEntry)) (id : String) (e : LayerEntry) :
    List (String × LayerEntry) :=
  match st with
  | [] => [(id, e)]
  | (k, v) :: rest => if k = id then (id, e) :: rest else (k, v) :: storeSet rest id e

/-- JS `delete obj[id]`. -/
def storeDelete (st : List (String × LayerEntry)) (id : String) :
    List (String × LayerEntry) :=
  match st with
  | [] => []
  | (k, v) :: rest => if k = id then rest else (k, v) :: storeDelete rest id

/-- `Object.keys`: the keys in insertion order. -/
def storeKeys (st : List (String × LayerEntry)) : List String :=
  st.map Prod.fst

/-! ### `layerUtils.ts` -/

/-- Result type of `getOpacityProperty`: `string | string[] | null`. -/
inductive OpacityProp where
  | str (p : String)
  | arr (ps : List String)
  | nul
deriving DecidableEq, Repr

/-- `getOpacityProperty` from `layerUtils.ts`: the opacity paint-property
name(s) for a layer type, `nul` when the type has none. -/
def getOpacityProperty (layerType : String) : OpacityProp :=
  if layerType = "fill" then .str "fill-opacity"
  else if layerType = "line" then .str "line-opacity"
  else if layerType = "circle" then .str "circle-opacity"
  else if layerType = "symbol" then .arr ["icon-opacity", "text-opacity"]
  else if layerType = "raster" then .str "raster-opacity"
  else if layerType = "background" then .str "background-opacity"
  else if layerType = "heatmap" then .str "heatmap-opacity"
  else if layerType = "fill-extrusion" then .str "fill-extrusion-opacity"
  else if layerType = "hillshade" then .str "hillshade-exaggeration"
  else if layerType = "color-relief" then .nul
  else .str (layerType ++ "-opacity")

/-- A snapshot of the host map's paint properties:
`getPaintProperty layerId prop`, `none` when undefined. -/
def PaintReader := String → String → Option Rat

/-- `getLayerOpacity` from `layerUtils.ts`. -/
def getLayerOpacity (paint : PaintReader) (layerId layerType : String) : Rat :=
  match getOpacityProperty layerType with
  | .nul => 1
  | .arr ps =>
    match ps with
    | [] => 1
    | p :: _ =>
      match paint layerId p with
      | some v => v
      | none => 1
  | .str p =>
    match paint layerId p with
    | some v => v
    | none => 1

/-- One `map.setPaintProperty(layerId, prop, value)` call. -/
structure PaintWrite where
  layerId : String
  prop : String
  value : Rat
deriving DecidableEq, Repr

/-- `setLayerOpacity` from `layerUtils.ts`, modelled as the list of paint
writes it performs on the map. -/
def setLayerOpacity (layerId layerType : String) (opacity : Rat) : List PaintWrite :=
  match getOpacityProperty layerType with
  | .nul => []
  | .arr ps => ps.map (fun p => ⟨layerId, p, opacity⟩)
  | .str p => [⟨layerId, p, opacity⟩]

/-- The layer types named in the switch of `getOpacityProperty`. -/
def knownOpacityTypes : List String :=
  ["fill", "line", "circle", "symbol", "raster", "background",
   "heatmap", "fill-extrusion", "hillshade", "color-relief"]

/-! ### `CustomLayerRegistry.ts`

Adapter methods may throw; a throwing call is modelled as `Except.error`.
The registry's `adapters` map iterates in insertion order, modelled as a
list. -/

/-- A registered custom layer adapter (`CustomLayerAdapter` in `types.ts`).
The `Fn` suffix distinguishes the method fields from the registry
functions below. -/
structure CustomLayerAdapter where
  type : String
  getLayerIdsFn : List String
  getLayerStateFn : String → Except String (Option LayerEntry)
  setVisibilityFn : String → Bool → Except String Unit
  setOpacityFn : String → Rat → Except String Unit

/-- `CustomLayerRegistry.getAdapterForLayer`: first adapter whose
`getLayerIds()` contains the id. -/
def getAdapterForLayer (adapters : List CustomLayerAdapter) (layerId : String) :
    Option CustomLayerAdapter :=
  adapters.find? (fun a => a.getLayerIdsFn.contains layerId)

/-- `CustomLayerRegistry.getAllLayerIds`. -/
def registryGetAllLayerIds (adapters : List CustomLayerAdapter) : List String :=
  adapters.foldl (fun acc a => acc ++ a.getLayerIdsFn) []

/-- `CustomLayerRegistry.setVisibility`: the adapter call is not wrapped in
any try/catch, so an adapter `throw` escapes the registry. -/
def registrySetVisibility (adapters : List CustomLayerAdapter)
    (layerId : String) (visible : Bool) : Except String Bool :=
  match getAdapterForLayer adapters layerId with
  | some a => (a.setVisibilityFn layerId visible).map (fun _ => true)
  | none => .ok false

/-- `CustomLayerRegistry.setOpacity`: same shape as `setVisibility`. -/
def registrySetOpacity (adapters : List CustomLayerAdapter)
    (layerId : String) (opacity : Rat) : Except String Bool :=
  match getAdapterForLayer adapters layerId with
  | some a => (a.setOpacityFn layerId opacity).map (fun _ => true)
  | none => .ok false

/-- `CustomLayerRegistry.getLayerState`. -/
def registryGetLayerState (adapters : List CustomLayerAdapter)
    (layerId : String) : Except String (Option LayerEntry) :=
  match getAdapterForLayer adapters layerId with
  | some a => a.getLayerStateFn layerId
  | none => .ok none

/-! ### Exclusion patterns (`isDrawnLayer`, `wildcardPatternsToRegex`,
`isExcludedByPattern` in `LayerControl.ts`) -/

/-- ASCII lower-casing of one character (the ids involved are ASCII; the
JS regexes carry the `i` flag). -/
def lowerChar (c : Char) : Char :=
  if c.toNat ≥ 65 && c.toNat ≤ 90 then Char.ofNat (c.toNat + 32) else c

/-- Case-normalised character list of a string. -/
def lowerList (s : String) : List Char :=
  s.toList.map lowerChar

/-- Anchored literal prefix test on character lists. -/
def listPrefix : List Char → List Char → Bool
  | [], _ => true
  | _ :: _, [] => false
  | c :: ps, d :: s => c = d && listPrefix ps s

/-- `isDrawnLayer`: built-in drawing-library layer-id patterns, all
case-insensitive prefix tests (`[-_\s]` after "gm" covers whitespace). -/
def isDrawnLayer (layerId : String) : Bool :=
  let s := lowerList layerId
  ["gm-", "gm_", "gm ", "gm\t", "gm\n", "gm\r", "gm\x0b", "gm\x0c",
   "gl-draw-", "gl-draw_",
   "mapbox-gl-draw-", "mapbox-gl-draw_",
   "terra-draw-", "terra-draw_",
   "maplibre-gl-draw-", "maplibre-gl-draw_",
   "draw-layer", "draw_layer",
   "measure-", "pmtiles-source-", "stac-search-footprints"].any
    (fun p => listPrefix p.toList s)

/-- Anchored glob matching against a pattern, structured on a fuel bound so
that it computes by structural recursion. Every recursive call strictly
decreases `p.length + s.length`, so `globMatchAux` below always supplies
enough fuel and the fuel-exhausted arm is never taken. -/
def globMatchFuel : Nat → List Char → List Char → Bool
  | 0, _, _ => false
  | _ + 1, [], [] => true
  | _ + 1, [], _ :: _ => false
  | n + 1, c :: ps, s =>
    if c = '*' then
      globMatchFuel n ps s ||
        (match s with
         | [] => false
         | _ :: s' => globMatchFuel n (c :: ps) s')
    else
      match s with
      | [] => false
      | d :: s' => c = d && globMatchFuel n ps s'

/-- Anchored, case-insensitive glob matching: the semantics of the regexes
produced by `wildcardPatternsToRegex` (every character literal except `*`,
which becomes `.*`). -/
def globMatchAux (p s : List Char) : Bool :=
  globMatchFuel (p.length + s.length + 1) p s

/-- `isExcludedByPattern`: does the id match any user exclusion glob. -/
def isExcludedByPattern (patterns : List String) (layerId : String) : Bool :=
  patterns.any (fun pat => globMatchAux (lowerList pat) (lowerList layerId))

/-! ### Classification (`autoDetectLayers` in `LayerControl.ts`) -/

/-- Where `autoDetectLayers` places one layer id. -/
inductive LayerClass where
  | background
  | individual
  | skipped
deriving DecidableEq, Repr

/-- The configuration fields `autoDetectLayers` reads. -/
structure ClassifyCtx where
  targetLayers : List String
  excludeDrawnLayers : Bool
  excludePatterns : List String
  basemapLayerIds : Option (List String)
deriving Repr

/-- `map.getLayer`, over the style snapshot's layer list. -/
def getLayer (layers : List Layer) (layerId : String) : Option Layer :=
  layers.find? (fun l => l.id = layerId)

/-- Per-layer decision of the auto-detect branch of `autoDetectLayers`
(`targetLayers` empty). `userAddedSourceIds` stands for the result of
`detectUserAddedSources()`; the branch zeroes it out whenever basemap-style
detection is active, exactly as the code does before the loop. -/
def classifyLayerAuto (ctx : ClassifyCtx) (userAddedSourceIds : List String)
    (layers : List Layer) (layerId : String) : LayerClass :=
  match getLayer layers layerId with
  | none => .skipped
  | some layer =>
    if ctx.excludeDrawnLayers && isDrawnLayer layerId then .background
    else if isExcludedByPattern ctx.excludePatterns layerId then .background
    else
      let useBasemapStyleDetection :=
        match ctx.basemapLayerIds with
        | some bs => !bs.isEmpty
        | none => false
      if useBasemapStyleDetection then
        if (ctx.basemapLayerIds.getD []).contains layerId then .background
        else .individual
      else
        let effectiveUserSources :=
          if useBasemapStyleDetection then [] else userAddedSourceIds
        match layer.source with
        | some src =>
          if src ≠ "" && effectiveUserSources.contains src then .individual
          else .background
        | none => .background

/-- Per-layer decision of the explicit-targets branch of `autoDetectLayers`
(`targetLayers` non-empty). -/
def classifyLayerExplicit (ctx : ClassifyCtx) (layerId : String) : LayerClass :=
  if isExcludedByPattern ctx.excludePatterns layerId then .background
  else if ctx.targetLayers.contains layerId then .individual
  else .background

/-- `autoDetectLayers` branch dispatch on `targetLayers.length === 0`. -/
def classifyLayer (ctx : ClassifyCtx) (userAddedSourceIds : List String)
    (layers : List Layer) (layerId : String) : LayerClass :=
  if ctx.targetLayers = [] then classifyLayerAuto ctx userAddedSourceIds layers layerId
  else classifyLayerExplicit ctx layerId

/-! ### Reconciliation (`checkForNewLayers`, `updateLayerStatesFromMap`,
`removeLayer`, the registry `onChange` handler)

`Env` is one fixed snapshot of everything `checkForNewLayers` reads from
outside the control's own state: the host map's style, the registry's
reported layers, and the configuration. `detectUserAddedSources()` is
deterministic in the style snapshot, so its result is the snapshot field
`userAddedSourceIds`. -/

/-- The control-state fields touched by the reconciliation engine
(`InternalControlState` plus the private fields of `LayerControl`). -/
structure ControlState where
  layerStates : List (String × LayerEntry)
  isStyleOperationInProgress : Bool
  removedCustomLayerIds : List String
  backgroundLayerVisibility : List (String × Bool)
  userInteractingWithSlider : Bool
deriving DecidableEq, Repr

/-- Fixed snapshot of the host map, registry and configuration. -/
structure Env where
  mapLayers : List Layer
  layout : String → Option String
  paint : PaintReader
  initialLayerIds : Option (List String)
  basemapLayerIds : Option (List String)
  targetLayers : List String
  excludeDrawnLayers : Bool
  excludePatterns : List String
  userAddedSourceIds : List String
  hasRegistry : Bool
  customLayerIds : List String
  customLayerState : String → Option LayerEntry
  customSymbolType : String → Option String

/-- `map.getLayer` over the snapshot. -/
def envGetLayer (env : Env) (layerId : String) : Option Layer :=
  getLayer env.mapLayers layerId

/-- `this.basemapLayerIds !== null && this.basemapLayerIds.size > 0`. -/
def basemapActive (env : Env) : Bool :=
  match env.basemapLayerIds with
  | some bs => !bs.isEmpty
  | none => false

/-- `useInitialLayerDetection` in `checkForNewLayers`. -/
def initialActive (env : Env) : Bool :=
  !basemapActive env &&
    (match env.initialLayerIds with
     | some ini => !ini.isEmpty
     | none => false)

/-- `isUserAddedLayer` from `LayerControl.ts`. -/
def isUserAddedLayer (env : Env) (st : List (String × LayerEntry))
    (layerId : String) : Bool :=
  if (storeLookup st layerId).isSome ∧ layerId ≠ "Background" then true
  else if basemapActive env then !((env.basemapLayerIds.getD []).contains layerId)
  else if (match env.initialLayerIds with
           | some ini => !ini.contains layerId
           | none => false) then true
  else
    match envGetLayer env layerId with
    | some layer =>
      match layer.source with
      | some src => if src ≠ "" then env.userAddedSourceIds.contains src else false
      | none => false
    | none => false

/-- `isAutoDetectMode` in `checkForNewLayers`. -/
def isAutoDetectMode (env : Env) (st : List (String × LayerEntry)) : Bool :=
  env.targetLayers.isEmpty
  || decide (env.targetLayers = ["Background"])
  || env.targetLayers.all
      (fun id => decide (id = "Background") || (storeLookup st id).isSome)

/-- The per-id test of the new-layer loop of `checkForNewLayers`: true when
the id is pushed onto `newLayers`. -/
def newLayerFilter (env : Env) (st : List (String × LayerEntry)) (auto : Bool)
    (layerId : String) : Bool :=
  decide (layerId ≠ "Background") && (storeLookup st layerId).isNone &&
  match envGetLayer env layerId with
  | none => false
  | some layer =>
    if (match env.initialLayerIds with
        | some ini => ini.contains layerId
        | none => false) then false
    else if auto then
      if env.excludeDrawnLayers && isDrawnLayer layerId then false
      else if isExcludedByPattern env.excludePatterns layerId then false
      else if !isUserAddedLayer env st layerId then false
      else if basemapActive env then !((env.basemapLayerIds.getD []).contains layerId)
      else if initialActive env then
        if (env.initialLayerIds.getD []).contains layerId then
          match layer.source with
          | some src => decide (src ≠ "") && env.userAddedSourceIds.contains src
          | none => false
        else true
      else
        match layer.source with
        | some src => decide (src ≠ "") && env.userAddedSourceIds.contains src
        | none => false
    else true

/-- First-occurrence de-duplication: the iteration order of
`new Set(style.layers.map(l => l.id))`. -/
def dedupKeepFirst (l : List String) : List String :=
  l.foldl (fun acc x => if acc.contains x then acc else acc ++ [x]) []

/-- `generateFriendlyName` step 1: strip `/^(layer[-_]?|gl[-_]?)/`. -/
def stripLayerNamePrefix (s : List Char) : List Char :=
  if listPrefix "layer-".toList s || listPrefix "layer_".toList s then s.drop 6
  else if listPrefix "layer".toList s then s.drop 5
  else if listPrefix "gl-".toList s || listPrefix "gl_".toList s then s.drop 3
  else if listPrefix "gl".toList s then s.drop 2
  else s

/-- `generateFriendlyName` step 2: `/[-_]/g` to spaces. -/
def dashesToSpaces (s : List Char) : List Char :=
  s.map (fun c => if c = '-' ∨ c = '_' then ' ' else c)

/-- JS `\w`: ASCII letters, digits, underscore. -/
def isWordChar (c : Char) : Bool :=
  (c.toNat ≥ 48 && c.toNat ≤ 57) || (c.toNat ≥ 65 && c.toNat ≤ 90) ||
  (c.toNat ≥ 97 && c.toNat ≤ 122) || c = '_'

/-- ASCII upper-casing of one character. -/
def upperChar (c : Char) : Char :=
  if c.toNat ≥ 97 && c.toNat ≤ 122 then Char.ofNat (c.toNat - 32) else c

/-- `generateFriendlyName` step 3: upper-case every `\b\w` position; the
flag records whether the previous character was a word character. -/
def capitalizeWords : List Char → Bool → List Char
  | [], _ => []
  | c :: rest, prevWord =>
    (if isWordChar c && !prevWord then upperChar c else c) ::
      capitalizeWords rest (isWordChar c)

/-- `generateFriendlyName` from `LayerControl.ts`. -/
def generateFriendlyName (layerId : String) : String :=
  let name := capitalizeWords (dashesToSpaces (stripLayerNamePrefix layerId.toList)) false
  if name.isEmpty then layerId else String.mk name

/-- One iteration of the new-layer `forEach` of `checkForNewLayers`:
read the layer's type, opacity and visibility, seed a store entry. -/
def addNativeLayer (env : Env) (st : List (String × LayerEntry))
    (layerId : String) : List (String × LayerEntry) :=
  match envGetLayer env layerId with
  | none => st
  | some layer =>
    let opacity := getLayerOpacity env.paint layerId layer.type
    let visible : Bool := decide (env.layout layerId ≠ some "none")
    storeSet st layerId
      { visible := visible, opacity := opacity, name := generateFriendlyName layerId }

/-- `getSymbolType(layerId) || undefined`: the empty string is falsy. -/
def normSymbolType (o : Option String) : Option String :=
  match o with
  | some t => if t = "" then none else some t
  | none => none

/-- One iteration of the new-custom-layer loop of `checkForNewLayers`:
skip ids already in the store and tombstoned ids, seed the rest from the
registry's reported state. -/
def customAddStep (env : Env) (tombstones : List String)
    (s : List (String × LayerEntry)) (lid : String) : List (String × LayerEntry) :=
  if (storeLookup s lid).isNone ∧ ¬ tombstones.contains lid then
    match env.customLayerState lid with
    | some cs =>
      storeSet s lid
        { visible := cs.visible, opacity := cs.opacity, name := cs.name,
          isCustomLayer := true,
          customLayerType := normSymbolType (env.customSymbolType lid) }
    | none => s
  else s

/-- The new-custom-layer loop of `checkForNewLayers`. -/
def customAddPhase (env : Env) (tombstones : List String)
    (st : List (String × LayerEntry)) : List (String × LayerEntry) :=
  env.customLayerIds.foldl (customAddStep env tombstones) st

/-- One iteration of the removed-custom-layer loop of `checkForNewLayers`:
drop a store entry flagged custom whose id the registry no longer
reports. -/
def customRemoveStep (env : Env) (s : List (String × LayerEntry))
    (layerId : String) : List (String × LayerEntry) :=
  match storeLookup s layerId with
  | some e =>
    if e.isCustomLayer ∧ ¬ env.customLayerIds.contains layerId then
      storeDelete s layerId
    else s
  | none => s

/-- The removed-custom-layer loop of `checkForNewLayers`. -/
def customRemovePhase (env : Env) (st : List (String × LayerEntry)) :
    List (String × LayerEntry) :=
  (storeKeys st).foldl (customRemoveStep env) st

/-- The removed-native-layer ids of `checkForNewLayers`: tracked,
non-Background, non-custom, no longer on the map. -/
def removedNativeIds (env : Env) (st : List (String × LayerEntry)) : List String :=
  (storeKeys st).filter
    (fun id =>
      decide (id ≠ "Background") &&
      (match storeLookup st id with
       | some e => !e.isCustomLayer
       | none => false) &&
      !((env.mapLayers.map Layer.id).contains id))

/-- The native part of one `checkForNewLayers` pass: compute `newLayers`
and `removedLayers` from the pre-pass store, apply the removals, then the
additions. -/
def nativePhases (env : Env) (s0 : List (String × LayerEntry)) :
    List (String × LayerEntry) :=
  let currentMapLayerIds := dedupKeepFirst (env.mapLayers.map Layer.id)
  let auto := isAutoDetectMode env s0
  let newLayers := currentMapLayerIds.filter (newLayerFilter env s0 auto)
  let removed := removedNativeIds env s0
  let st1 := removed.foldl storeDelete s0
  newLayers.foldl (addNativeLayer env) st1

/-- The store transformation of one `checkForNewLayers` pass (the body
after the guard check): native removals, then native additions, then — when
a registry exists — custom additions and custom removals. -/
def reconcileStore (env : Env) (tombstones : List String)
    (s0 : List (String × LayerEntry)) : List (String × LayerEntry) :=
  let st2 := nativePhases env s0
  let st3 := if env.hasRegistry then customAddPhase env tombstones st2 else st2
  if env.hasRegistry then customRemovePhase env st3 else st3

/-- `checkForNewLayers` from `LayerControl.ts` (host reads assumed not to
throw; the throwing variant is modelled separately below). Returns the
control state after one reconciliation pass. -/
def checkForNewLayers (env : Env) (c : ControlState) : ControlState :=
  if c.isStyleOperationInProgress then c
  else { c with layerStates := reconcileStore env c.removedCustomLayerIds c.layerStates }

/-- One entry update of `updateLayerStatesFromMap` (no-throw variant). -/
def updateOneLayerState (env : Env) (st : List (String × LayerEntry))
    (layerId : String) : List (String × LayerEntry) :=
  match storeLookup st layerId with
  | none => st
  | some e =>
    if e.isCustomLayer then st
    else if layerId = "Background" then st
    else
      match envGetLayer env layerId with
      | none => st
      | some layer =>
        let visible : Bool := decide (env.layout layerId ≠ some "none")
        let opacity := getLayerOpacity env.paint layerId layer.type
        storeSet st layerId { e with visible := visible, opacity := opacity }

/-- `updateLayerStatesFromMap` from `LayerControl.ts` (no-throw variant):
sync every tracked native entry's visibility/opacity from the map. -/
def updateLayerStatesFromMap (env : Env) (c : ControlState) : ControlState :=
  if c.userInteractingWithSlider then c
  else { c with layerStates := (storeKeys c.layerStates).foldl (updateOneLayerState env) c.layerStates }

/-! #### Fallible host reads

`getLayoutProperty`/`getPaintProperty` throw when the layer vanished
between enumeration and detail lookup; a fallible read is an `Except`. The
style snapshot itself (`getStyle`, `getLayer`) stays total. -/

/-- A fallible `getLayoutProperty(id, "visibility")`. -/
def LayoutReaderE := String → Except String (Option String)

/-- A fallible `getPaintProperty`. -/
def PaintReaderE := String → String → Except String (Option Rat)

/-- `getLayerOpacity` over fallible paint reads: a throwing read
propagates. -/
def getLayerOpacityE (paintE : PaintReaderE) (layerId layerType : String) :
    Except String Rat :=
  match getOpacityProperty layerType with
  | .nul => .ok 1
  | .arr ps =>
    match ps with
    | [] => .ok 1
    | p :: _ =>
      (paintE layerId p).map (fun o => match o with | some v => v | none => 1)
  | .str p =>
    (paintE layerId p).map (fun o => match o with | some v => v | none => 1)

/-- The new-layer `forEach` of `checkForNewLayers` with fallible reads.
The TS `try` covers the whole pass, so on the first throw the loop stops;
`error` carries the store as mutated so far (in-place mutations persist). -/
def addPhaseE (env : Env) (layoutE : LayoutReaderE) (paintE : PaintReaderE) :
    List String → List (String × LayerEntry) →
    Except (List (String × LayerEntry)) (List (String × LayerEntry))
  | [], st => .ok st
  | lid :: rest, st =>
    match envGetLayer env lid with
    | none => addPhaseE env layoutE paintE rest st
    | some layer =>
      match getLayerOpacityE paintE lid layer.type with
      | .error _ => .error st
      | .ok opacity =>
        match layoutE lid with
        | .error _ => .error st
        | .ok vis =>
          addPhaseE env layoutE paintE rest
            (storeSet st lid
              { visible := decide (vis ≠ some "none"), opacity := opacity,
                name := generateFriendlyName lid })

/-- `checkForNewLayers` with fallible detail reads: one `try/catch` wraps
the whole pass, so a throw in the add loop ends the pass — the mutations
already applied are kept, the custom-layer section is skipped and no
exception escapes. -/
def checkForNewLayersE (env : Env) (layoutE : LayoutReaderE) (paintE : PaintReaderE)
    (c : ControlState) : ControlState :=
  if c.isStyleOperationInProgress then c
  else
    let currentMapLayerIds := dedupKeepFirst (env.mapLayers.map Layer.id)
    let auto := isAutoDetectMode env c.layerStates
    let newLayers := currentMapLayerIds.filter (newLayerFilter env c.layerStates auto)
    let removed := removedNativeIds env c.layerStates
    let st1 := removed.foldl storeDelete c.layerStates
    match addPhaseE env layoutE paintE newLayers st1 with
    | .error stAbort => { c with layerStates := stAbort }
    | .ok st2 =>
      let st3 := if env.hasRegistry then customAddPhase env c.removedCustomLayerIds st2 else st2
      let st4 := if env.hasRegistry then customRemovePhase env st3 else st3
      { c with layerStates := st4 }

/-- One entry update of `updateLayerStatesFromMap` with fallible reads: the
`try/catch` sits inside the `forEach`, so a throw skips only this entry. -/
def updateOneLayerStateE (env : Env) (layoutE : LayoutReaderE) (paintE : PaintReaderE)
    (st : List (String × LayerEntry)) (layerId : String) :
    List (String × LayerEntry) :=
  match storeLookup st layerId with
  | none => st
  | some e =>
    if e.isCustomLayer then st
    else if layerId = "Background" then st
    else
      match envGetLayer env layerId with
      | none => st
      | some layer =>
        match layoutE layerId with
        | .error _ => st
        | .ok vis =>
          match getLayerOpacityE paintE layerId layer.type with
          | .error _ => st
          | .ok opacity =>
            storeSet st layerId
              { e with visible := decide (vis ≠ some "none"), opacity := opacity }

/-- `updateLayerStatesFromMap` with fallible reads: exceptions are caught
per entry and the loop continues. -/
def updateLayerStatesFromMapE (env : Env) (layoutE : LayoutReaderE)
    (paintE : PaintReaderE) (c : ControlState) : ControlState :=
  if c.userInteractingWithSlider then c
  else
    { c with
      layerStates := (storeKeys c.layerStates).foldl
        (updateOneLayerStateE env layoutE paintE) c.layerStates }

/-- `removeLayer` from `LayerControl.ts`, restricted to its effect on the
control state: raise the guard, tombstone a custom layer's id, delete the
entry. (The native map mutation and the 200 ms guard-clear timer are host
effects; the timer is modelled in the scheduler section.) -/
def removeLayerCtl (env : Env) (c : ControlState) (layerId : String) : ControlState :=
  let isCustom :=
    match storeLookup c.layerStates layerId with
    | some e => e.isCustomLayer
    | none => false
  let tomb :=
    if isCustom && env.hasRegistry then
      if c.removedCustomLayerIds.contains layerId then c.removedCustomLayerIds
      else c.removedCustomLayerIds ++ [layerId]
    else c.removedCustomLayerIds
  { c with
    isStyleOperationInProgress := true
    removedCustomLayerIds := tomb
    layerStates := storeDelete c.layerStates layerId }

/-! #### Background aggregate (`toggleBackgroundVisibility`,
`changeBackgroundOpacity`, `updateBackgroundCheckboxState`) -/

/-- JS `Map.set`: update in place if present, else append. -/
def bgVisSet (m : List (String × Bool)) (id : String) (v : Bool) :
    List (String × Bool) :=
  match m with
  | [] => [(id, v)]
  | (k, b) :: rest => if k = id then (id, v) :: rest else (k, b) :: bgVisSet rest id v

/-- JS `Map.get`. -/
def bgVisGet (m : List (String × Bool)) (id : String) : Option Bool :=
  match m with
  | [] => none
  | (k, b) :: rest => if k = id then some b else bgVisGet rest id

/-- `toggleBackgroundVisibility` from `LayerControl.ts`: store the value on
the Background entry, then for every non-user-added style layer update the
visibility cache and emit the native layout write. Returns the new control
state and the `setLayoutProperty` calls made. -/
def toggleBackgroundVisibility (env : Env) (c : ControlState) (visible : Bool) :
    ControlState × List (String × String) :=
  let c1 :=
    match storeLookup c.layerStates "Background" with
    | some e =>
      { c with layerStates := storeSet c.layerStates "Background" { e with visible := visible } }
    | none => c
  env.mapLayers.foldl
    (fun acc layer =>
      if ¬ isUserAddedLayer env acc.1.layerStates layer.id then
        ({ acc.1 with
            backgroundLayerVisibility := bgVisSet acc.1.backgroundLayerVisibility layer.id visible },
         acc.2 ++ [(layer.id, if visible then "visible" else "none")])
      else acc)
    (c1, [])

/-- `changeBackgroundOpacity` from `LayerControl.ts`: store the value on
the Background entry, then fan the opacity write out to every
non-user-added style layer. Returns the new control state and the paint
writes made. -/
def changeBackgroundOpacity (env : Env) (c : ControlState) (opacity : Rat) :
    ControlState × List PaintWrite :=
  let c1 :=
    match storeLookup c.layerStates "Background" with
    | some e =>
      { c with layerStates := storeSet c.layerStates "Background" { e with opacity := opacity } }
    | none => c
  (c1,
   env.mapLayers.foldl
     (fun ws layer =>
       if ¬ isUserAddedLayer env c1.layerStates layer.id then
         match envGetLayer env layer.id with
         | some gl => ws ++ setLayerOpacity layer.id gl.type opacity
         | none => ws
       else ws)
     [])

/-- `updateBackgroundCheckboxState` from `LayerControl.ts`: recompute
`anyVisible`/`allVisible` over the non-user-added layers from the
visibility cache, drive the main checkbox (`checked`, `indeterminate`) and
store `anyVisible` on the Background entry. Returns the new control state,
the checkbox `checked` flag and the `indeterminate` flag. -/
def updateBackgroundCheckboxState (env : Env) (c : ControlState) :
    ControlState × Bool × Bool :=
  let flags := env.mapLayers.foldl
    (fun (acc : Bool × Bool) layer =>
      if ¬ isUserAddedLayer env c.layerStates layer.id then
        let visible := bgVisGet c.backgroundLayerVisibility layer.id
        (acc.1 || decide (visible = some true),
         acc.2 && ! decide (visible = some false))
      else acc)
    (false, true)
  let anyVisible := flags.1
  let allVisible := flags.2
  let c1 :=
    match storeLookup c.layerStates "Background" with
    | some e =>
      { c with layerStates := storeSet c.layerStates "Background" { e with visible := anyVisible } }
    | none => c
  (c1, anyVisible, anyVisible && !allVisible)

/-- The registry `onChange` handler wired in `setupLayerChangeListeners`:
a fresh "add" event for a tombstoned id re-arms it. -/
def onCustomLayerChange (c : ControlState) (event layerId : String) : ControlState :=
  if event = "add" ∧ layerId ≠ "" then
    { c with removedCustomLayerIds := c.removedCustomLayerIds.filter (· ≠ layerId) }
  else c

/-- A sequence of reconciliation passes, one per environment snapshot. -/
def runPasses (envs : List Env) (c : ControlState) : ControlState :=
  envs.foldl (fun s e => checkForNewLayers e s) c

/-! #### The timer queue

`setupLayerChangeListeners` schedules the reconcile callback with a plain
`setTimeout` on every host notification and never calls `clearTimeout`;
`toggleLayerVisibility` / `changeLayerOpacity` schedule a callback that
only lowers the guard flag 200 ms later. The event loop is modelled as a
list of pending timers drained in due-time order. -/

/-- The callbacks the control passes to `setTimeout`: the notification
callback (`updateLayerStatesFromMap` then `checkForNewLayers`) and the
guard-clearing callback of a mutation. -/
inductive Cb where
  | reconcile
  | clearGuard
deriving DecidableEq, Repr

/-- The control state plus its pending timers; `passesRun` counts the
reconciliation passes whose body actually ran (guard down at fire time). -/
structure Sys where
  ctl : ControlState
  timers : List (Nat × Cb)
  passesRun : Nat
deriving DecidableEq

/-- Fire one callback. The reconcile callback runs
`updateLayerStatesFromMap` (which does not check the style-operation
guard) and then `checkForNewLayers`, whose body is skipped while the guard
is up; only a run that gets past the guard counts in `passesRun`. The
clearGuard callback only lowers the flag. Neither schedules a timer. -/
def fireCb (env : Env) (s : Sys) (cb : Cb) : Sys :=
  match cb with
  | .reconcile =>
    let c1 := updateLayerStatesFromMap env s.ctl
    if c1.isStyleOperationInProgress then { s with ctl := c1 }
    else { s with ctl := checkForNewLayers env c1, passesRun := s.passesRun + 1 }
  | .clearGuard =>
    { s with ctl := { s.ctl with isStyleOperationInProgress := false } }

/-- Pop the pending timer with the smallest due time,
earliest-scheduled first among ties (the event-loop order). -/
def popEarliest : List (Nat × Cb) → Option ((Nat × Cb) × List (Nat × Cb))
  | [] => none
  | t :: rest =>
    match popEarliest rest with
    | none => some (t, rest)
    | some (u, rest') => if t.1 ≤ u.1 then some (t, rest) else some (u, t :: rest')

/-- Run the event loop for at most `fuel` timer fires. -/
def drainFuel (env : Env) : Nat → Sys → Sys
  | 0, s => s
  | fuel + 1, s =>
    match popEarliest s.timers with
    | none => s
    | some (t, rest) => drainFuel env fuel (fireCb env { s with timers := rest } t.2)

/-- Drain every pending timer (no callback of this control schedules a
further timer, so the pending count is enough fuel). -/
def drain (env : Env) (s : Sys) : Sys := drainFuel env s.timers.length s

/-- `toggleLayerVisibility` on a non-Background layer id at time `now`:
raise the guard, store the value on the tracked entry, write the host map
(outside this state), and schedule the guard-clearing timeout 200 ms
later. No reconciliation pass is scheduled by the mutation. -/
def toggleLayerVisibilitySys (now : Nat) (s : Sys) (layerId : String)
    (visible : Bool) : Sys :=
  if layerId = "Background" then s
  else
    let c1 := { s.ctl with isStyleOperationInProgress := true }
    let c2 :=
      match storeLookup c1.layerStates layerId with
      | some e =>
        { c1 with layerStates := storeSet c1.layerStates layerId { e with visible := visible } }
      | none => c1
    { s with ctl := c2, timers := s.timers ++ [(now + 200, Cb.clearGuard)] }

/-- A styledata or content-data notification from the host at time `now`:
the listener schedules the reconcile callback 100 ms later with a plain
`setTimeout`; no pending timer is cleared or reset. (The metadata flavour
uses 150 ms and skips the state sync; the delay value is immaterial
here.) -/
def notifySys (now : Nat) (s : Sys) : Sys :=
  { s with timers := s.timers ++ [(now + 100, Cb.reconcile)] }

/-- An adapter whose read/write methods all throw. -/
def throwingAdapter : CustomLayerAdapter where
  type := "bad"
  getLayerIdsFn := ["cog-1"]
  getLayerStateFn := fun _ => .error "boom"
  setVisibilityFn := fun _ _ => .error "boom"
  setOpacityFn := fun _ _ => .error "boom"

/-- Sample custom-layer entry, as an adapter would report it. -/
def cogEntry : LayerEntry :=
  { visible := true, opacity := 1, name := "COG 1", isCustomLayer := true,
    customLayerType := none }

/-- Sample snapshot: empty host map, one adapter layer "cog-1". -/
def cogEnv : Env :=
  { mapLayers := []
    layout := fun _ => none
    paint := fun _ _ => none
    initialLayerIds := none
    basemapLayerIds := none
    targetLayers := []
    excludeDrawnLayers := true
    excludePatterns := []
    userAddedSourceIds := []
    hasRegistry := true
    customLayerIds := ["cog-1"]
    customLayerState := fun lid => if lid = "cog-1" then some cogEntry else none
    customSymbolType := fun _ => none }

/-- Sample control state tracking the adapter layer "cog-1". -/
def cogState0 : ControlState :=
  { layerStates := [("cog-1", cogEntry)]
    isStyleOperationInProgress := false
    removedCustomLayerIds := []
    backgroundLayerVisibility := []
    userInteractingWithSlider := false }

/-- Sample snapshot: the host map holds only a drawing-tool layer; the
configuration targets layer "a" explicitly; "a" was present at attach. -/
def drawEnv : Env :=
  { mapLayers := [⟨"gl-draw-point", "circle", none⟩]
    layout := fun _ => none
    paint := fun _ _ => none
    initialLayerIds := some ["a"]
    basemapLayerIds := none
    targetLayers := ["a"]
    excludeDrawnLayers := true
    excludePatterns := []
    userAddedSourceIds := []
    hasRegistry := false
    customLayerIds := []
    customLayerState := fun _ => none
    customSymbolType := fun _ => none }

/-- Sample control state tracking the targeted layer "a". -/
def drawState0 : ControlState :=
  { layerStates := [("a", { visible := true, opacity := 1, name := "A" })]
    isStyleOperationInProgress := false
    removedCustomLayerIds := []
    backgroundLayerVisibility := []
    userInteractingWithSlider := false }

/-- Sample snapshot: two fill layers added after attach, no registry. -/
def twoLayerEnv : Env :=
  { mapLayers := [⟨"alpha", "fill", none⟩, ⟨"beta", "fill", none⟩]
    layout := fun _ => none
    paint := fun _ _ => some 1
    initialLayerIds := some ["old"]
    basemapLayerIds := none
    targetLayers := []
    excludeDrawnLayers := true
    excludePatterns := []
    userAddedSourceIds := []
    hasRegistry := false
    customLayerIds := []
    customLayerState := fun _ => none
    customSymbolType := fun _ => none }

/-- Fallible paint reads that throw for layer "alpha" only. -/
def paintFailAlpha : PaintReaderE :=
  fun layerId _ => if layerId = "alpha" then .error "gone" else .ok (some 0)

/-- Layout reads that always succeed. -/
def layoutOk : LayoutReaderE := fun _ => .ok none

/-- Sample control state with no tracked layers. -/
def emptyCtl : ControlState :=
  { layerStates := []
    isStyleOperationInProgress := false
    removedCustomLayerIds := []
    backgroundLayerVisibility := []
    userInteractingWithSlider := false }

/-- Sample control state tracking both fill layers of `twoLayerEnv`. -/
def twoLayerCtl : ControlState :=
  { layerStates :=
      [("alpha", { visible := true, opacity := 1, name := "Alpha" }),
       ("beta", { visible := true, opacity := 1, name := "Beta" })]
    isStyleOperationInProgress := false
    removedCustomLayerIds := []
    backgroundLayerVisibility := []
    userInteractingWithSlider := false }

/-- Sample snapshot: two basemap layers present at attach, nothing else. -/
def bgEnv : Env :=
  { mapLayers := [⟨"bg1", "background", none⟩, ⟨"bg2", "fill", none⟩]
    layout := fun _ => none
    paint := fun _ _ => some 1
    initialLayerIds := some ["bg1", "bg2"]
    basemapLayerIds := none
    targetLayers := []
    excludeDrawnLayers := true
    excludePatterns := []
    userAddedSourceIds := []
    hasRegistry := false
    customLayerIds := []
    customLayerState := fun _ => none
    customSymbolType := fun _ => none }

/-- Sample control state holding only the Background aggregate entry, with
one background layer cached visible and one cached hidden. -/
def bgState : ControlState :=
  { layerStates := [("Background", { visible := true, opacity := 1, name := "Background" })]
    isStyleOperationInProgress := false
    removedCustomLayerIds := []
    backgroundLayerVisibility := [("bg1", true), ("bg2", false)]
    userInteractingWithSlider := false }

/-- Sample snapshot with an empty host map and no registry. -/
def idleEnv : Env :=
  { mapLayers := []
    layout := fun _ => none
    paint := fun _ _ => none
    initialLayerIds := none
    basemapLayerIds := none
    targetLayers := []
    excludeDrawnLayers := true
    excludePatterns := []
    userAddedSourceIds := []
    hasRegistry := false
    customLayerIds := []
    customLayerState := fun _ => none
    customSymbolType := fun _ => none }

/-- Sample system with no tracked layers, no pending timers and no passes
run yet. -/
def burstSys : Sys :=
  { ctl := emptyCtl, timers := [], passesRun := 0 }

/-- The snapshot of `twoLayerEnv` after the mutation wrote
`visibility = "none"` for layer "alpha" on the host map. -/
def mutEnv : Env :=
  { twoLayerEnv with
    layout := fun lid => if lid = "alpha" then some "none" else none }

/-- Sample system tracking both fill layers of `twoLayerEnv`, idle. -/
def mutSys : Sys :=
  { ctl := twoLayerCtl, timers := [], passesRun := 0 }

/-- C2 scenario: at time 0 the user toggles layer "alpha" off (guard up,
clearGuard timer due at 200) and the host emits a styledata notification
(reconcile timer due at 100, inside the guard window). -/
def c2Scenario : Sys :=
  notifySys 0 (toggleLayerVisibilitySys 0 mutSys "alpha" false)

end LayerControlSpec

namespace LayerControlSpec

theorem storeLookup_set (st : List (String × LayerEntry)) (id id' : String) (e : LayerEntry) :
    storeLookup (storeSet st id e) id' = if id' = id then some e else storeLookup st id' := by
  induction st with
  | nil =>
    simp only [storeSet, storeLookup]
    by_cases h : id = id'
    · simp [h]
    · have h' : ¬ (id' = id) := fun hc => h hc.symm
      simp [h, h']
  | cons p rest ih =>
    obtain ⟨k, v⟩ := p
    simp only [storeSet]
    by_cases hk : k = id
    · subst hk
      simp only [if_pos rfl, storeLookup]
      by_cases h' : k = id'
      · simp only [if_pos h', if_pos h'.symm]
      · have h'' : ¬ (id' = k) := fun hc => h' hc.symm
        simp only [if_neg h', if_neg h'']
    · simp only [if_neg hk, storeLookup]
      by_cases h' : k = id'
      · subst h'
        simp [hk]
      · simp only [if_neg h', ih]

theorem storeLookup_delete_ne (st : List (String × LayerEntry)) (id id' : String)
    (h : id' ≠ id) :
    storeLookup (storeDelete st id) id' = storeLookup st id' := by
  induction st with
  | nil => simp [storeDelete]
  | cons p rest ih =>
    obtain ⟨k, v⟩ := p
    simp only [storeDelete]
    by_cases hk : k = id
    · subst hk
      simp only [if_pos rfl, storeLookup]
      have : ¬ (k = id') := fun hc => h (hc.symm)
      simp [this]
    · simp only [if_neg hk, storeLookup]
      by_cases h' : k = id' <;> simp [h', ih]

theorem storeLookup_eq_none_of_not_mem (st : List (String × LayerEntry)) (id : String)
    (h : id ∉ storeKeys st) : storeLookup st id = none := by
  induction st with
  | nil => rfl
  | cons p rest ih =>
    obtain ⟨k, v⟩ := p
    simp only [storeKeys, List.map_cons, List.mem_cons] at h
    push_neg at h
    simp only [storeLookup]
    have : ¬ (k = id) := fun hc => h.1 hc.symm
    simp only [if_neg this]
    exact ih h.2

theorem storeLookup_delete_self (st : List (String × LayerEntry)) (id : String)
    (hnd : (storeKeys st).Nodup) :
    storeLookup (storeDelete st id) id = none := by
  induction st with
  | nil => rfl
  | cons p rest ih =>
    obtain ⟨k, v⟩ := p
    simp only [storeKeys, List.map_cons, List.nodup_cons] at hnd
    simp only [storeDelete]
    by_cases hk : k = id
    · subst hk
      simp only [if_pos rfl]
      exact storeLookup_eq_none_of_not_mem rest k hnd.1
    · simp only [if_neg hk, storeLookup, if_neg hk]
      exact ih hnd.2

theorem storeLookup_delete_none (st : List (String × LayerEntry)) (x y : String)
    (h : storeLookup st x = none) : storeLookup (storeDelete st y) x = none := by
  induction st with
  | nil => rfl
  | cons p rest ih =>
    obtain ⟨k, v⟩ := p
    simp only [storeLookup] at h
    by_cases hk : k = x
    · simp [hk] at h
    · simp only [if_neg hk] at h
      simp only [storeDelete]
      by_cases hky : k = y
      · simp only [if_pos hky]
        exact h
      · simp only [if_neg hky, storeLookup, if_neg hk]
        exact ih h

theorem foldl_storeDelete_none (l : List String) (st : List (String × LayerEntry))
    (x : String) (h : storeLookup st x = none) :
    storeLookup (l.foldl storeDelete st) x = none := by
  induction l generalizing st with
  | nil => exact h
  | cons y rest ih =>
    simp only [List.foldl_cons]
    exact ih _ (storeLookup_delete_none st x y h)

theorem foldl_storeDelete_not_mem (l : List String) (st : List (String × LayerEntry))
    (x : String) (h : x ∉ l) :
    storeLookup (l.foldl storeDelete st) x = storeLookup st x := by
  induction l generalizing st with
  | nil => rfl
  | cons y rest ih =>
    simp only [List.mem_cons] at h
    push_neg at h
    simp only [List.foldl_cons]
    rw [ih _ h.2, storeLookup_delete_ne st y x (fun hc => h.1 hc)]

theorem addNativeLayer_lookup_ne (env : Env) (st : List (String × LayerEntry))
    (lid x : String) (h : x ≠ lid) :
    storeLookup (addNativeLayer env st lid) x = storeLookup st x := by
  unfold addNativeLayer
  cases envGetLayer env lid with
  | none => rfl
  | some layer => simp [storeLookup_set, h]

theorem foldl_addNativeLayer_not_mem (env : Env) (l : List String)
    (st : List (String × LayerEntry)) (x : String) (h : x ∉ l) :
    storeLookup (l.foldl (addNativeLayer env) st) x = storeLookup st x := by
  induction l generalizing st with
  | nil => rfl
  | cons y rest ih =>
    simp only [List.mem_cons] at h
    push_neg at h
    simp only [List.foldl_cons]
    rw [ih _ h.2, addNativeLayer_lookup_ne env st y x h.1]

theorem addNativeLayer_preserves_some (env : Env) (st : List (String × LayerEntry))
    (lid x : String) (e : LayerEntry) (h : storeLookup st x = some e)
    (hx : x ≠ lid) :
    storeLookup (addNativeLayer env st lid) x = some e := by
  rw [addNativeLayer_lookup_ne env st lid x hx]
  exact h

theorem customAddStep_lookup_ne (env : Env) (tomb : List String)
    (s : List (String × LayerEntry)) (lid x : String) (h : x ≠ lid) :
    storeLookup (customAddStep env tomb s lid) x = storeLookup s x := by
  unfold customAddStep
  by_cases hc : (storeLookup s lid).isNone = true ∧ ¬ tomb.contains lid = true
  · rw [if_pos hc]
    cases env.customLayerState lid with
    | none => rfl
    | some cs => simp [storeLookup_set, h]
  · rw [if_neg hc]

theorem customAddStep_preserves_some (env : Env) (tomb : List String)
    (s : List (String × LayerEntry)) (lid x : String) (e : LayerEntry)
    (h : storeLookup s x = some e) :
    storeLookup (customAddStep env tomb s lid) x = some e := by
  by_cases hx : x = lid
  · subst hx
    unfold customAddStep
    simp [h]
  · rw [customAddStep_lookup_ne env tomb s lid x hx]
    exact h

theorem foldl_customAddStep_preserves_some (env : Env) (tomb : List String)
    (l : List String) (st : List (String × LayerEntry)) (x : String) (e : LayerEntry)
    (h : storeLookup st x = some e) :
    storeLookup (l.foldl (customAddStep env tomb) st) x = some e := by
  induction l generalizing st with
  | nil => exact h
  | cons y rest ih =>
    simp only [List.foldl_cons]
    exact ih _ (customAddStep_preserves_some env tomb st y x e h)

theorem foldl_customAddStep_tomb (env : Env) (tomb : List String)
    (l : List String) (st : List (String × LayerEntry)) (x : String)
    (htomb : tomb.contains x = true) :
    storeLookup (l.foldl (customAddStep env tomb) st) x = storeLookup st x := by
  induction l generalizing st with
  | nil => rfl
  | cons y rest ih =>
    simp only [List.foldl_cons]
    rw [ih _]
    by_cases hx : x = y
    · subst hx
      unfold customAddStep
      have hneg : ¬ ((storeLookup st x).isNone = true ∧ ¬ tomb.contains x = true) := by
        intro hcond
        exact hcond.2 htomb
      rw [if_neg hneg]
    · exact customAddStep_lookup_ne env tomb st y x hx

theorem foldl_customAddStep_isSome_of_mem (env : Env) (tomb : List String)
    (l : List String) (st : List (String × LayerEntry)) (x : String)
    (hmem : x ∈ l) (htomb : tomb.contains x = false)
    (hstate : (env.customLayerState x).isSome) :
    (storeLookup (l.foldl (customAddStep env tomb) st) x).isSome := by
  induction l generalizing st with
  | nil => cases hmem
  | cons y rest ih =>
    simp only [List.foldl_cons]
    rcases List.mem_cons.mp hmem with hy | hy
    · subst hy
      cases hcur : storeLookup st x with
      | some e =>
        rw [foldl_customAddStep_preserves_some env tomb rest _ x e
          (customAddStep_preserves_some env tomb st x x e hcur)]
        rfl
      | none =>
        obtain ⟨cs, hcs⟩ := Option.isSome_iff_exists.mp hstate
        have hset : storeLookup (customAddStep env tomb st x) x = some
            { visible := cs.visible, opacity := cs.opacity, name := cs.name,
              isCustomLayer := true,
              customLayerType := normSymbolType (env.customSymbolType x) } := by
          unfold customAddStep
          have hcond : (storeLookup st x).isNone = true ∧ ¬ tomb.contains x = true := by
            refine ⟨by simp [hcur], ?_⟩
            intro hc
            rw [htomb] at hc
            exact Bool.noConfusion hc
          rw [if_pos hcond, hcs]
          simp [storeLookup_set]
        rw [foldl_customAddStep_preserves_some env tomb rest _ x _ hset]
        rfl
    · exact ih _ hy

theorem customRemoveStep_lookup_none (env : Env) (s : List (String × LayerEntry))
    (y x : String) (h : storeLookup s x = none) :
    storeLookup (customRemoveStep env s y) x = none := by
  unfold customRemoveStep
  cases hy : storeLookup s y with
  | none => exact h
  | some e =>
    by_cases hc : e.isCustomLayer = true ∧ ¬ env.customLayerIds.contains y = true
    · simp only [if_pos hc]
      exact storeLookup_delete_none s x y h
    · simp only [if_neg hc]
      exact h

theorem foldl_customRemoveStep_none (env : Env) (l : List String)
    (st : List (String × LayerEntry)) (x : String)
    (h : storeLookup st x = none) :
    storeLookup (l.foldl (customRemoveStep env) st) x = none := by
  induction l generalizing st with
  | nil => exact h
  | cons y rest ih =>
    simp only [List.foldl_cons]
    exact ih _ (customRemoveStep_lookup_none env st y x h)

theorem customRemoveStep_lookup_in_registry (env : Env)
    (s : List (String × LayerEntry)) (y x : String)
    (hx : env.customLayerIds.contains x = true) :
    storeLookup (customRemoveStep env s y) x = storeLookup s x := by
  unfold customRemoveStep
  cases hy : storeLookup s y with
  | none => rfl
  | some e =>
    by_cases hc : e.isCustomLayer = true ∧ ¬ env.customLayerIds.contains y = true
    · simp only [if_pos hc]
      have hxy : x ≠ y := by
        intro hcon
        subst hcon
        exact hc.2 hx
      exact storeLookup_delete_ne s y x hxy
    · simp only [if_neg hc]

theorem foldl_customRemoveStep_in_registry (env : Env) (l : List String)
    (st : List (String × LayerEntry)) (x : String)
    (hx : env.customLayerIds.contains x = true) :
    storeLookup (l.foldl (customRemoveStep env) st) x = storeLookup st x := by
  induction l generalizing st with
  | nil => rfl
  | cons y rest ih =>
    simp only [List.foldl_cons]
    rw [ih _, customRemoveStep_lookup_in_registry env st y x hx]

theorem mem_dedupKeepFirst_aux (l acc : List String) (x : String)
    (h : x ∈ l.foldl (fun acc x => if acc.contains x then acc else acc ++ [x]) acc) :
    x ∈ acc ∨ x ∈ l := by
  induction l generalizing acc with
  | nil => exact Or.inl h
  | cons y rest ih =>
    simp only [List.foldl_cons] at h
    rcases ih _ h with hm | hm
    · by_cases hy : acc.contains y
      · simp only [if_pos hy] at hm
        exact Or.inl hm
      · simp only [if_neg hy, List.mem_append, List.mem_singleton] at hm
        rcases hm with hm | hm
        · exact Or.inl hm
        · exact Or.inr (by simp [hm])
    · exact Or.inr (List.mem_cons_of_mem _ hm)

theorem mem_of_mem_dedupKeepFirst (l : List String) (x : String)
    (h : x ∈ dedupKeepFirst l) : x ∈ l := by
  rcases mem_dedupKeepFirst_aux l [] x h with hm | hm
  · cases hm
  · exact hm

/-- `checkForNewLayers` only ever rewrites `layerStates`. -/
theorem checkForNewLayers_fields (env : Env) (c : ControlState) :
    (checkForNewLayers env c).isStyleOperationInProgress = c.isStyleOperationInProgress
    ∧ (checkForNewLayers env c).removedCustomLayerIds = c.removedCustomLayerIds
    ∧ (checkForNewLayers env c).backgroundLayerVisibility = c.backgroundLayerVisibility
    ∧ (checkForNewLayers env c).userInteractingWithSlider = c.userInteractingWithSlider := by
  unfold checkForNewLayers
  by_cases h : c.isStyleOperationInProgress = true <;> simp [h]

/-- Store effect of one pass on an absent, tombstoned id that is not a
current map layer: it stays absent. -/
theorem reconcileStore_none_of_tomb (env : Env) (tomb : List String)
    (s0 : List (String × LayerEntry)) (id : String)
    (hmap : (env.mapLayers.map Layer.id).contains id = false)
    (htomb : tomb.contains id = true)
    (hnone : storeLookup s0 id = none) :
    storeLookup (reconcileStore env tomb s0) id = none := by
  simp only [reconcileStore]
  have h1 : storeLookup ((removedNativeIds env s0).foldl storeDelete s0) id = none :=
    foldl_storeDelete_none _ _ _ hnone
  have hnotmem : id ∉ (dedupKeepFirst (env.mapLayers.map Layer.id)).filter
      (newLayerFilter env s0 (isAutoDetectMode env s0)) := by
    intro hm
    have hmem := mem_of_mem_dedupKeepFirst _ _ (List.mem_of_mem_filter hm)
    simp at hmap
    obtain ⟨layer, hl, hid⟩ := List.mem_map.mp hmem
    exact hmap layer hl hid
  have h2 : storeLookup (((dedupKeepFirst (env.mapLayers.map Layer.id)).filter
      (newLayerFilter env s0 (isAutoDetectMode env s0))).foldl
      (addNativeLayer env)
      ((removedNativeIds env s0).foldl storeDelete s0)) id = none := by
    rw [foldl_addNativeLayer_not_mem env _ _ id hnotmem]
    exact h1
  by_cases hr : env.hasRegistry = true
  · rw [if_pos hr, if_pos hr]
    have h3 : storeLookup (customAddPhase env tomb
        (((dedupKeepFirst (env.mapLayers.map Layer.id)).filter
          (newLayerFilter env s0 (isAutoDetectMode env s0))).foldl
          (addNativeLayer env)
          ((removedNativeIds env s0).foldl storeDelete s0))) id = none := by
      unfold customAddPhase
      rw [foldl_customAddStep_tomb env _ _ _ id htomb]
      exact h2
    unfold customRemovePhase
    exact foldl_customRemoveStep_none env _ _ id h3
  · rw [if_neg hr, if_neg hr]
    exact h2

/-- Store effect of one pass on an un-tombstoned id the registry reports
with a readable state: the pass (re-)creates its entry. -/
theorem reconcileStore_readds_custom (env : Env) (tomb : List String)
    (st : List (String × LayerEntry)) (id : String)
    (hreg : env.hasRegistry = true)
    (hmem : id ∈ env.customLayerIds)
    (hcont : env.customLayerIds.contains id = true)
    (htomb : tomb.contains id = false)
    (hstate : (env.customLayerState id).isSome) :
    (storeLookup (reconcileStore env tomb st) id).isSome := by
  simp only [reconcileStore]
  rw [if_pos hreg, if_pos hreg]
  unfold customRemovePhase customAddPhase
  rw [foldl_customRemoveStep_in_registry env _ _ id hcont]
  exact foldl_customAddStep_isSome_of_mem env tomb env.customLayerIds
    (((dedupKeepFirst (env.mapLayers.map Layer.id)).filter
      (newLayerFilter env st (isAutoDetectMode env st))).foldl
      (addNativeLayer env)
      ((removedNativeIds env st).foldl storeDelete st)) id hmem htomb hstate

/-- Tombstone invariant of one pass: an absent, tombstoned id that is not a
current map layer stays absent and stays tombstoned. -/
theorem tombstone_pass_invariant (env : Env) (c : ControlState) (id : String)
    (hmap : (env.mapLayers.map Layer.id).contains id = false)
    (htomb : c.removedCustomLayerIds.contains id = true)
    (hnone : storeLookup c.layerStates id = none) :
    storeLookup (checkForNewLayers env c).layerStates id = none
    ∧ (checkForNewLayers env c).removedCustomLayerIds.contains id = true := by
  refine ⟨?_, by rw [(checkForNewLayers_fields env c).2.1]; exact htomb⟩
  unfold checkForNewLayers
  by_cases hg : c.isStyleOperationInProgress = true
  · simp only [if_pos hg]
    exact hnone
  · simp only [if_neg hg]
    exact reconcileStore_none_of_tomb env c.removedCustomLayerIds c.layerStates id
      hmap htomb hnone

/-- Tombstone invariant over any sequence of passes. -/
theorem runPasses_tombstone_invariant (envs : List Env) (c : ControlState) (id : String)
    (hmaps : ∀ env ∈ envs, (env.mapLayers.map Layer.id).contains id = false)
    (htomb : c.removedCustomLayerIds.contains id = true)
    (hnone : storeLookup c.layerStates id = none) :
    storeLookup (runPasses envs c).layerStates id = none
    ∧ (runPasses envs c).removedCustomLayerIds.contains id = true := by
  induction envs generalizing c with
  | nil => exact ⟨hnone, htomb⟩
  | cons env rest ih =>
    have hstep := tombstone_pass_invariant env c id (hmaps env (List.mem_cons_self _ _))
      htomb hnone
    exact ih _ (fun e he => hmaps e (List.mem_cons_of_mem _ he)) hstep.2 hstep.1

/-- The registry `onChange` handler only rewrites the tombstone set. -/
theorem onCustomLayerChange_fields (c : ControlState) (ev lid : String) :
    (onCustomLayerChange c ev lid).layerStates = c.layerStates
    ∧ (onCustomLayerChange c ev lid).isStyleOperationInProgress
        = c.isStyleOperationInProgress := by
  unfold onCustomLayerChange
  by_cases h : ev = "add" ∧ lid ≠ "" <;> simp [h]

theorem foldl_id_of_step_id {α β : Type} (f : α → β → α) (l : List β) (st : α)
    (h : ∀ y ∈ l, f st y = st) : l.foldl f st = st := by
  induction l with
  | nil => rfl
  | cons y rest ih =>
    simp only [List.foldl_cons, h y (List.mem_cons_self _ _)]
    exact ih (fun z hz => h z (List.mem_cons_of_mem _ hz))

theorem mem_pairs_of_lookup (st : List (String × LayerEntry)) (x : String)
    (e : LayerEntry) (h : storeLookup st x = some e) : (x, e) ∈ st := by
  induction st with
  | nil => cases h
  | cons p rest ih =>
    obtain ⟨k, v⟩ := p
    simp only [storeLookup] at h
    by_cases hk : k = x
    · subst hk
      rw [if_pos rfl] at h
      injection h with h
      subst h
      exact List.mem_cons_self _ _
    · rw [if_neg hk] at h
      exact List.mem_cons_of_mem _ (ih h)

theorem lookup_isSome_of_mem_keys (st : List (String × LayerEntry)) (x : String)
    (h : x ∈ storeKeys st) : (storeLookup st x).isSome := by
  induction st with
  | nil => cases h
  | cons p rest ih =>
    obtain ⟨k, v⟩ := p
    simp only [storeKeys, List.map_cons, List.mem_cons] at h
    simp only [storeLookup]
    by_cases hk : k = x
    · simp [hk]
    · rw [if_neg hk]
      rcases h with h | h
      · exact absurd h.symm hk
      · exact ih h

theorem storeKeys_delete_sublist (st : List (String × LayerEntry)) (id : String) :
    (storeKeys (storeDelete st id)).Sublist (storeKeys st) := by
  induction st with
  | nil => simp [storeDelete]
  | cons p rest ih =>
    obtain ⟨k, v⟩ := p
    simp only [storeDelete]
    by_cases hk : k = id
    · rw [if_pos hk]
      exact List.sublist_cons_of_sublist _ (List.Sublist.refl _)
    · rw [if_neg hk]
      simp only [storeKeys, List.map_cons]
      exact List.Sublist.cons₂ _ ih

theorem nodup_storeDelete (st : List (String × LayerEntry)) (id : String)
    (h : (storeKeys st).Nodup) : (storeKeys (storeDelete st id)).Nodup :=
  (storeKeys_delete_sublist st id).nodup h

theorem storeKeys_set (st : List (String × LayerEntry)) (id : String) (e : LayerEntry) :
    storeKeys (storeSet st id e) =
      if id ∈ storeKeys st then storeKeys st else storeKeys st ++ [id] := by
  induction st with
  | nil => simp [storeSet, storeKeys]
  | cons p rest ih =>
    obtain ⟨k, v⟩ := p
    simp only [storeSet]
    by_cases hk : k = id
    · subst hk
      simp [storeKeys]
    · rw [if_neg hk]
      simp only [storeKeys, List.map_cons] at ih ⊢
      rw [ih]
      by_cases hm : id ∈ List.map Prod.fst rest
      · have hm2 : id ∈ k :: List.map Prod.fst rest := List.mem_cons_of_mem _ hm
        simp [hm, hm2]
      · have hm2 : id ∉ k :: List.map Prod.fst rest := by
          intro hc
          rcases List.mem_cons.mp hc with hc | hc
          · exact hk hc.symm
          · exact hm hc
        simp [hm, hm2]

theorem nodup_storeSet (st : List (String × LayerEntry)) (id : String) (e : LayerEntry)
    (h : (storeKeys st).Nodup) : (storeKeys (storeSet st id e)).Nodup := by
  rw [storeKeys_set]
  by_cases hm : id ∈ storeKeys st
  · rw [if_pos hm]
    exact h
  · rw [if_neg hm]
    simp [List.nodup_append, h, hm]

theorem storeDelete_some_of_nodup (st : List (String × LayerEntry)) (y x : String)
    (e : LayerEntry) (hnd : (storeKeys st).Nodup)
    (h : storeLookup (storeDelete st y) x = some e) : storeLookup st x = some e := by
  by_cases hxy : x = y
  · subst hxy
    rw [storeLookup_delete_self st x hnd] at h
    cases h
  · rw [storeLookup_delete_ne st y x hxy] at h
    exact h

theorem nodup_foldl_storeDelete (l : List String) (st : List (String × LayerEntry))
    (h : (storeKeys st).Nodup) :
    (storeKeys (l.foldl storeDelete st)).Nodup := by
  induction l generalizing st with
  | nil => exact h
  | cons y rest ih =>
    simp only [List.foldl_cons]
    exact ih _ (nodup_storeDelete st y h)

theorem nodup_addNativeLayer (env : Env) (st : List (String × LayerEntry)) (lid : String)
    (h : (storeKeys st).Nodup) : (storeKeys (addNativeLayer env st lid)).Nodup := by
  unfold addNativeLayer
  cases envGetLayer env lid with
  | none => exact h
  | some layer => exact nodup_storeSet st lid _ h

theorem nodup_foldl_addNativeLayer (env : Env) (l : List String)
    (st : List (String × LayerEntry)) (h : (storeKeys st).Nodup) :
    (storeKeys (l.foldl (addNativeLayer env) st)).Nodup := by
  induction l generalizing st with
  | nil => exact h
  | cons y rest ih =>
    simp only [List.foldl_cons]
    exact ih _ (nodup_addNativeLayer env st y h)

theorem nodup_customAddStep (env : Env) (tomb : List String)
    (st : List (String × LayerEntry)) (lid : String)
    (h : (storeKeys st).Nodup) : (storeKeys (customAddStep env tomb st lid)).Nodup := by
  unfold customAddStep
  by_cases hc : (storeLookup st lid).isNone = true ∧ ¬ tomb.contains lid = true
  · rw [if_pos hc]
    cases env.customLayerState lid with
    | none => exact h
    | some cs => exact nodup_storeSet st lid _ h
  · rw [if_neg hc]
    exact h

theorem nodup_foldl_customAddStep (env : Env) (tomb : List String) (l : List String)
    (st : List (String × LayerEntry)) (h : (storeKeys st).Nodup) :
    (storeKeys (l.foldl (customAddStep env tomb) st)).Nodup := by
  induction l generalizing st with
  | nil => exact h
  | cons y rest ih =>
    simp only [List.foldl_cons]
    exact ih _ (nodup_customAddStep env tomb st y h)

theorem nodup_customRemoveStep (env : Env) (st : List (String × LayerEntry)) (y : String)
    (h : (storeKeys st).Nodup) : (storeKeys (customRemoveStep env st y)).Nodup := by
  unfold customRemoveStep
  cases storeLookup st y with
  | none => exact h
  | some e =>
    dsimp only
    by_cases hc : e.isCustomLayer = true ∧ ¬ env.customLayerIds.contains y = true
    · rw [if_pos hc]
      exact nodup_storeDelete st y h
    · rw [if_neg hc]
      exact h

theorem nodup_foldl_customRemoveStep (env : Env) (l : List String)
    (st : List (String × LayerEntry)) (h : (storeKeys st).Nodup) :
    (storeKeys (l.foldl (customRemoveStep env) st)).Nodup := by
  induction l generalizing st with
  | nil => exact h
  | cons y rest ih =>
    simp only [List.foldl_cons]
    exact ih _ (nodup_customRemoveStep env st y h)

theorem foldl_storeDelete_some (l : List String) (st : List (String × LayerEntry))
    (x : String) (e : LayerEntry) (hnd : (storeKeys st).Nodup)
    (h : storeLookup (l.foldl storeDelete st) x = some e) :
    storeLookup st x = some e ∧ x ∉ l := by
  induction l generalizing st with
  | nil => exact ⟨h, List.not_mem_nil x⟩
  | cons y rest ih =>
    simp only [List.foldl_cons] at h
    obtain ⟨h1, h2⟩ := ih _ (nodup_storeDelete st y hnd) h
    have hxy : x ≠ y := by
      intro hc
      subst hc
      rw [storeLookup_delete_self st x hnd] at h1
      cases h1
    rw [storeLookup_delete_ne st y x hxy] at h1
    refine ⟨h1, ?_⟩
    intro hc
    rcases List.mem_cons.mp hc with hc | hc
    · exact hxy hc
    · exact h2 hc

theorem foldl_addNative_some (env : Env) (l : List String)
    (st : List (String × LayerEntry)) (x : String) (e : LayerEntry)
    (h : storeLookup (l.foldl (addNativeLayer env) st) x = some e) :
    storeLookup st x = some e ∨ (x ∈ l ∧ e.isCustomLayer = false) := by
  induction l generalizing st with
  | nil => exact Or.inl h
  | cons y rest ih =>
    simp only [List.foldl_cons] at h
    rcases ih _ h with h1 | h1
    · by_cases hxy : x = y
      · subst hxy
        unfold addNativeLayer at h1
        cases hl : envGetLayer env x with
        | none =>
          rw [hl] at h1
          exact Or.inl h1
        | some layer =>
          rw [hl] at h1
          dsimp only at h1
          rw [storeLookup_set, if_pos rfl] at h1
          injection h1 with h1
          right
          refine ⟨List.mem_cons_self _ _, ?_⟩
          rw [← h1]
      · rw [addNativeLayer_lookup_ne env st y x hxy] at h1
        exact Or.inl h1
    · exact Or.inr ⟨List.mem_cons_of_mem _ h1.1, h1.2⟩

theorem foldl_addNative_sets (env : Env) (l : List String)
    (st : List (String × LayerEntry)) (x : String)
    (hmem : x ∈ l) (hlay : (envGetLayer env x).isSome) :
    ∃ e, storeLookup (l.foldl (addNativeLayer env) st) x = some e
      ∧ e.isCustomLayer = false := by
  induction l generalizing st with
  | nil => cases hmem
  | cons y rest ih =>
    simp only [List.foldl_cons]
    by_cases hr : x ∈ rest
    · exact ih _ hr
    · have hxy : x = y := by
        rcases List.mem_cons.mp hmem with h | h
        · exact h
        · exact absurd h hr
      subst hxy
      obtain ⟨layer, hl⟩ := Option.isSome_iff_exists.mp hlay
      have hset : storeLookup (addNativeLayer env st x) x = some
          { visible := decide (env.layout x ≠ some "none"),
            opacity := getLayerOpacity env.paint x layer.type,
            name := generateFriendlyName x } := by
        unfold addNativeLayer
        rw [hl]
        simp [storeLookup_set]
      refine ⟨{ visible := decide (env.layout x ≠ some "none"),
                opacity := getLayerOpacity env.paint x layer.type,
                name := generateFriendlyName x }, ?_, rfl⟩
      rw [foldl_addNativeLayer_not_mem env rest _ x hr, hset]

theorem foldl_customAddStep_some_noncustom (env : Env) (tomb : List String)
    (l : List String) (st : List (String × LayerEntry)) (x : String) (e : LayerEntry)
    (h : storeLookup (l.foldl (customAddStep env tomb) st) x = some e)
    (hnc : e.isCustomLayer = false) :
    storeLookup st x = some e := by
  induction l generalizing st with
  | nil => exact h
  | cons y rest ih =>
    simp only [List.foldl_cons] at h
    have h1 := ih _ h
    by_cases hxy : x = y
    · subst hxy
      unfold customAddStep at h1
      by_cases hc : (storeLookup st x).isNone = true ∧ ¬ tomb.contains x = true
      · rw [if_pos hc] at h1
        cases hcs : env.customLayerState x with
        | none =>
          rw [hcs] at h1
          exact h1
        | some cs =>
          rw [hcs] at h1
          rw [storeLookup_set, if_pos rfl] at h1
          injection h1 with h1
          rw [← h1] at hnc
          cases hnc
      · rw [if_neg hc] at h1
        exact h1
    · rw [customAddStep_lookup_ne env tomb st y x hxy] at h1
      exact h1

theorem foldl_customAddStep_some_src (env : Env) (tomb : List String)
    (l : List String) (st : List (String × LayerEntry)) (x : String) (e : LayerEntry)
    (h : storeLookup (l.foldl (customAddStep env tomb) st) x = some e) :
    storeLookup st x = some e ∨ x ∈ l := by
  induction l generalizing st with
  | nil => exact Or.inl h
  | cons y rest ih =>
    simp only [List.foldl_cons] at h
    rcases ih _ h with h1 | h1
    · by_cases hxy : x = y
      · exact Or.inr (by simp [hxy])
      · rw [customAddStep_lookup_ne env tomb st y x hxy] at h1
        exact Or.inl h1
    · exact Or.inr (List.mem_cons_of_mem _ h1)

theorem foldl_customRemoveStep_noncustom_some (env : Env) (l : List String)
    (st : List (String × LayerEntry)) (x : String) (e : LayerEntry)
    (h : storeLookup st x = some e) (hnc : e.isCustomLayer = false) :
    storeLookup (l.foldl (customRemoveStep env) st) x = some e := by
  induction l generalizing st with
  | nil => exact h
  | cons y rest ih =>
    simp only [List.foldl_cons]
    refine ih _ ?_
    unfold customRemoveStep
    cases hy : storeLookup st y with
    | none => exact h
    | some ey =>
      dsimp only
      by_cases hc : ey.isCustomLayer = true ∧ ¬ env.customLayerIds.contains y = true
      · rw [if_pos hc]
        have hxy : x ≠ y := by
          intro hcon
          subst hcon
          rw [h] at hy
          injection hy with hy
          rw [← hy] at hc
          rw [hnc] at hc
          exact Bool.noConfusion hc.1
        rw [storeLookup_delete_ne st y x hxy]
        exact h
      · rw [if_neg hc]
        exact h

theorem foldl_customRemoveStep_some (env : Env) (l : List String)
    (st : List (String × LayerEntry)) (x : String) (e : LayerEntry)
    (hnd : (storeKeys st).Nodup)
    (h : storeLookup (l.foldl (customRemoveStep env) st) x = some e) :
    storeLookup st x = some e := by
  induction l generalizing st with
  | nil => exact h
  | cons y rest ih =>
    simp only [List.foldl_cons] at h
    have h1 := ih _ (nodup_customRemoveStep env st y hnd) h
    unfold customRemoveStep at h1
    cases hy : storeLookup st y with
    | none =>
      rw [hy] at h1
      exact h1
    | some ey =>
      rw [hy] at h1
      dsimp only at h1
      by_cases hc : ey.isCustomLayer = true ∧ ¬ env.customLayerIds.contains y = true
      · rw [if_pos hc] at h1
        exact storeDelete_some_of_nodup st y x e hnd h1
      · rw [if_neg hc] at h1
        exact h1

theorem contains_of_mem (l : List String) (x : String) (h : x ∈ l) :
    l.contains x = true :=
  List.elem_eq_true_of_mem h

theorem not_mem_of_contains_false (l : List String) (x : String)
    (h : l.contains x = false) : x ∉ l := by
  intro hm
  rw [contains_of_mem l x hm] at h
  exact Bool.noConfusion h

theorem nodup_customAddPhase (env : Env) (tomb : List String)
    (st : List (String × LayerEntry)) (h : (storeKeys st).Nodup) :
    (storeKeys (customAddPhase env tomb st)).Nodup :=
  nodup_foldl_customAddStep env tomb env.customLayerIds st h

theorem customAddPhase_preserves_some (env : Env) (tomb : List String)
    (st : List (String × LayerEntry)) (x : String) (e : LayerEntry)
    (h : storeLookup st x = some e) :
    storeLookup (customAddPhase env tomb st) x = some e :=
  foldl_customAddStep_preserves_some env tomb env.customLayerIds st x e h

theorem customAddPhase_some_noncustom (env : Env) (tomb : List String)
    (st : List (String × LayerEntry)) (x : String) (e : LayerEntry)
    (h : storeLookup (customAddPhase env tomb st) x = some e)
    (hnc : e.isCustomLayer = false) : storeLookup st x = some e :=
  foldl_customAddStep_some_noncustom env tomb env.customLayerIds st x e h hnc

theorem customAddPhase_some_src (env : Env) (tomb : List String)
    (st : List (String × LayerEntry)) (x : String) (e : LayerEntry)
    (h : storeLookup (customAddPhase env tomb st) x = some e) :
    storeLookup st x = some e ∨ x ∈ env.customLayerIds :=
  foldl_customAddStep_some_src env tomb env.customLayerIds st x e h

theorem customAddPhase_isSome_of_mem (env : Env) (tomb : List String)
    (st : List (String × LayerEntry)) (x : String)
    (hmem : x ∈ env.customLayerIds) (htomb : tomb.contains x = false)
    (hstate : (env.customLayerState x).isSome) :
    (storeLookup (customAddPhase env tomb st) x).isSome :=
  foldl_customAddStep_isSome_of_mem env tomb env.customLayerIds st x hmem htomb hstate

theorem customRemovePhase_some (env : Env) (st : List (String × LayerEntry))
    (x : String) (e : LayerEntry) (hnd : (storeKeys st).Nodup)
    (h : storeLookup (customRemovePhase env st) x = some e) :
    storeLookup st x = some e :=
  foldl_customRemoveStep_some env (storeKeys st) st x e hnd h

theorem customRemovePhase_noncustom_some (env : Env) (st : List (String × LayerEntry))
    (x : String) (e : LayerEntry)
    (h : storeLookup st x = some e) (hnc : e.isCustomLayer = false) :
    storeLookup (customRemovePhase env st) x = some e :=
  foldl_customRemoveStep_noncustom_some env (storeKeys st) st x e h hnc

theorem customRemovePhase_in_registry (env : Env) (st : List (String × LayerEntry))
    (x : String) (hx : env.customLayerIds.contains x = true) :
    storeLookup (customRemovePhase env st) x = storeLookup st x :=
  foldl_customRemoveStep_in_registry env (storeKeys st) st x hx

theorem envGetLayer_isSome_of_mem (env : Env) (x : String)
    (h : x ∈ env.mapLayers.map Layer.id) : (envGetLayer env x).isSome := by
  obtain ⟨layer, hl, hid⟩ := List.mem_map.mp h
  unfold envGetLayer getLayer
  rw [List.find?_isSome]
  exact ⟨layer, hl, by simp [hid]⟩

theorem mem_keys_of_lookup (st : List (String × LayerEntry)) (x : String)
    (e : LayerEntry) (h : storeLookup st x = some e) : x ∈ storeKeys st :=
  List.mem_map_of_mem Prod.fst (mem_pairs_of_lookup st x e h)

theorem mem_dedupKeepFirst_of_mem_aux (l acc : List String) (x : String) :
    (x ∈ acc ∨ x ∈ l) →
    x ∈ l.foldl (fun acc x => if acc.contains x then acc else acc ++ [x]) acc := by
  induction l generalizing acc with
  | nil =>
    intro h
    rcases h with h | h
    · exact h
    · cases h
  | cons y rest ih =>
    intro h
    simp only [List.foldl_cons]
    apply ih
    by_cases hy : acc.contains y = true
    · rw [if_pos hy]
      rcases h with h | h
      · exact Or.inl h
      · rcases List.mem_cons.mp h with h | h
        · subst h
          exact Or.inl (List.mem_of_elem_eq_true hy)
        · exact Or.inr h
    · rw [if_neg hy]
      rcases h with h | h
      · exact Or.inl (List.mem_append_left _ h)
      · rcases List.mem_cons.mp h with h | h
        · subst h
          exact Or.inl (List.mem_append_right _ (List.mem_singleton.mpr rfl))
        · exact Or.inr h

theorem mem_dedupKeepFirst_of_mem (l : List String) (x : String) (h : x ∈ l) :
    x ∈ dedupKeepFirst l :=
  mem_dedupKeepFirst_of_mem_aux l [] x (Or.inr h)

/-- A surviving non-custom, non-Background entry must still be on the map:
otherwise it would have been in the removal list. -/
theorem contains_of_surviving (env : Env) (s0 : List (String × LayerEntry))
    (x : String) (e : LayerEntry)
    (h : storeLookup s0 x = some e) (hnc : e.isCustomLayer = false)
    (hbg : x ≠ "Background") (hnr : x ∉ removedNativeIds env s0) :
    (env.mapLayers.map Layer.id).contains x = true := by
  by_contra hc
  have hcf : (env.mapLayers.map Layer.id).contains x = false :=
    Bool.eq_false_iff.mpr hc
  apply hnr
  unfold removedNativeIds
  apply List.mem_filter.mpr
  refine ⟨mem_keys_of_lookup s0 x e h, ?_⟩
  simp only [h, hnc, hcf, hbg]
  simp [h, hnc, hcf, hbg]

theorem nodup_nativePhases (env : Env) (s0 : List (String × LayerEntry))
    (hnd : (storeKeys s0).Nodup) : (storeKeys (nativePhases env s0)).Nodup := by
  simp only [nativePhases]
  exact nodup_foldl_addNativeLayer env _ _ (nodup_foldl_storeDelete _ _ hnd)

/-- An entry present before the pass and still on the map survives the
native phases unchanged. -/
theorem nativePhases_keeps (env : Env) (s0 : List (String × LayerEntry))
    (x : String) (e0 : LayerEntry)
    (h : storeLookup s0 x = some e0)
    (hx : (env.mapLayers.map Layer.id).contains x = true) :
    storeLookup (nativePhases env s0) x = some e0 := by
  simp only [nativePhases]
  have hxrem : x ∉ removedNativeIds env s0 := by
    intro hm
    have hp := (List.mem_filter.mp hm).2
    simp only [Bool.and_eq_true] at hp
    have h3 := hp.2
    rw [hx] at h3
    exact Bool.noConfusion h3
  have hxnew : x ∉ (dedupKeepFirst (env.mapLayers.map Layer.id)).filter
      (newLayerFilter env s0 (isAutoDetectMode env s0)) := by
    intro hm
    have hp := (List.mem_filter.mp hm).2
    simp only [newLayerFilter, Bool.and_eq_true] at hp
    have h2 := hp.1.2
    rw [h] at h2
    exact Bool.noConfusion h2
  rw [foldl_addNativeLayer_not_mem env _ _ x hxnew,
    foldl_storeDelete_not_mem _ _ x hxrem]
  exact h

/-- The native phases add every id accepted by the new-layer filter. -/
theorem nativePhases_adds (env : Env) (s0 : List (String × LayerEntry))
    (x : String)
    (hmem : x ∈ env.mapLayers.map Layer.id)
    (hfil : newLayerFilter env s0 (isAutoDetectMode env s0) x = true) :
    ∃ e, storeLookup (nativePhases env s0) x = some e ∧ e.isCustomLayer = false := by
  simp only [nativePhases]
  apply foldl_addNative_sets
  · exact List.mem_filter.mpr ⟨mem_dedupKeepFirst_of_mem _ x hmem, hfil⟩
  · exact envGetLayer_isSome_of_mem env x hmem

/-- Where an entry present after the native phases came from. -/
theorem nativePhases_some_src (env : Env) (s0 : List (String × LayerEntry))
    (x : String) (e : LayerEntry) (hnd : (storeKeys s0).Nodup)
    (h : storeLookup (nativePhases env s0) x = some e) :
    (x ∈ env.mapLayers.map Layer.id ∧ e.isCustomLayer = false)
    ∨ (storeLookup s0 x = some e ∧ x ∉ removedNativeIds env s0) := by
  simp only [nativePhases] at h
  rcases foldl_addNative_some env _ _ x e h with h1 | h1
  · right
    exact foldl_storeDelete_some _ _ x e hnd h1
  · left
    exact ⟨mem_of_mem_dedupKeepFirst _ x (List.mem_of_mem_filter h1.1), h1.2⟩

/-- One pass keeps every entry whose id is still on the map (custom entries
provided the registry still reports them). -/
theorem reconcileStore_keeps (env : Env) (tomb : List String)
    (s0 : List (String × LayerEntry)) (x : String) (e0 : LayerEntry)
    (hclean : ∀ p ∈ s0, p.2.isCustomLayer = true →
      env.customLayerIds.contains p.1 = true)
    (h : storeLookup s0 x = some e0)
    (hx : (env.mapLayers.map Layer.id).contains x = true) :
    storeLookup (reconcileStore env tomb s0) x = some e0 := by
  simp only [reconcileStore]
  have h2 := nativePhases_keeps env s0 x e0 h hx
  by_cases hr : env.hasRegistry = true
  · rw [if_pos hr, if_pos hr]
    have h3 := customAddPhase_preserves_some env tomb _ x e0 h2
    cases hcust : e0.isCustomLayer with
    | false => exact customRemovePhase_noncustom_some env _ x e0 h3 hcust
    | true =>
      have hcid := hclean (x, e0) (mem_pairs_of_lookup s0 x e0 h) hcust
      rw [customRemovePhase_in_registry env _ x hcid]
      exact h3
  · rw [if_neg hr, if_neg hr]
    exact h2

/-- One pass creates an entry for every id accepted by the new-layer
filter. -/
theorem reconcileStore_adds (env : Env) (tomb : List String)
    (s0 : List (String × LayerEntry)) (x : String)
    (hmem : x ∈ env.mapLayers.map Layer.id)
    (hfil : newLayerFilter env s0 (isAutoDetectMode env s0) x = true) :
    ∃ e, storeLookup (reconcileStore env tomb s0) x = some e
      ∧ e.isCustomLayer = false := by
  simp only [reconcileStore]
  obtain ⟨e, he, hnc⟩ := nativePhases_adds env s0 x hmem hfil
  by_cases hr : env.hasRegistry = true
  · rw [if_pos hr, if_pos hr]
    refine ⟨e, ?_, hnc⟩
    exact customRemovePhase_noncustom_some env _ x e
      (customAddPhase_preserves_some env tomb _ x e he) hnc
  · rw [if_neg hr, if_neg hr]
    exact ⟨e, he, hnc⟩

/-- A non-custom, non-Background entry present after a pass is a current
map layer. -/
theorem reconcileStore_noncustom_on_map (env : Env) (tomb : List String)
    (s0 : List (String × LayerEntry)) (x : String) (e : LayerEntry)
    (hnd : (storeKeys s0).Nodup)
    (h : storeLookup (reconcileStore env tomb s0) x = some e)
    (hnc : e.isCustomLayer = false) (hbg : x ≠ "Background") :
    (env.mapLayers.map Layer.id).contains x = true := by
  have h2 : storeLookup (nativePhases env s0) x = some e := by
    simp only [reconcileStore] at h
    by_cases hr : env.hasRegistry = true
    · rw [if_pos hr, if_pos hr] at h
      exact customAddPhase_some_noncustom env tomb _ x e
        (customRemovePhase_some env _ x e
          (nodup_customAddPhase env tomb _ (nodup_nativePhases env s0 hnd)) h) hnc
    · rw [if_neg hr, if_neg hr] at h
      exact h
  rcases nativePhases_some_src env s0 x e hnd h2 with h3 | h3
  · exact contains_of_mem _ x h3.1
  · exact contains_of_surviving env s0 x e h3.1 hnc hbg h3.2

/-- A custom-flagged entry present after a pass is reported by the
registry. -/
theorem reconcileStore_custom_in_registry (env : Env) (tomb : List String)
    (s0 : List (String × LayerEntry)) (x : String) (e : LayerEntry)
    (hnd : (storeKeys s0).Nodup)
    (hclean : ∀ p ∈ s0, p.2.isCustomLayer = true →
      env.customLayerIds.contains p.1 = true)
    (h : storeLookup (reconcileStore env tomb s0) x = some e)
    (hcust : e.isCustomLayer = true) :
    env.customLayerIds.contains x = true := by
  simp only [reconcileStore] at h
  by_cases hr : env.hasRegistry = true
  · rw [if_pos hr, if_pos hr] at h
    have h3 := customRemovePhase_some env _ x e
      (nodup_customAddPhase env tomb _ (nodup_nativePhases env s0 hnd)) h
    rcases customAddPhase_some_src env tomb _ x e h3 with h2 | h2
    · rcases nativePhases_some_src env s0 x e hnd h2 with h1 | h1
      · rw [h1.2] at hcust
        exact Bool.noConfusion hcust
      · exact hclean (x, e) (mem_pairs_of_lookup s0 x e h1.1) hcust
    · exact contains_of_mem _ x h2
  · rw [if_neg hr, if_neg hr] at h
    rcases nativePhases_some_src env s0 x e hnd h with h1 | h1
    · rw [h1.2] at hcust
      exact Bool.noConfusion hcust
    · exact hclean (x, e) (mem_pairs_of_lookup s0 x e h1.1) hcust

theorem isUserAddedLayer_state_eq (env : Env) (st st' : List (String × LayerEntry))
    (x : String) (h : storeLookup st x = storeLookup st' x) :
    isUserAddedLayer env st x = isUserAddedLayer env st' x := by
  unfold isUserAddedLayer
  rw [h]

theorem newLayerFilter_state_eq (env : Env) (st st' : List (String × LayerEntry))
    (a : Bool) (x : String) (h : storeLookup st x = storeLookup st' x) :
    newLayerFilter env st a x = newLayerFilter env st' a x := by
  unfold newLayerFilter
  rw [h, isUserAddedLayer_state_eq env st st' x h]

theorem isAutoDetectMode_of_no_targets (env : Env) (st : List (String × LayerEntry))
    (h : env.targetLayers = []) : isAutoDetectMode env st = true := by
  unfold isAutoDetectMode
  rw [h]
  rfl

theorem contains_filter_ne_self (l : List String) (id : String) :
    (l.filter (· ≠ id)).contains id = false := by
  simp only [List.contains_eq_any_beq, List.any_eq_false]
  intro x hx
  have := (List.mem_filter.mp hx).2
  simp only [decide_eq_true_eq] at this
  simp [Ne.symm this]

theorem updateOneLayerStateE_lookup_ne (env : Env) (layoutE : LayoutReaderE)
    (paintE : PaintReaderE) (st : List (String × LayerEntry)) (y x : String)
    (h : x ≠ y) :
    storeLookup (updateOneLayerStateE env layoutE paintE st y) x = storeLookup st x := by
  unfold updateOneLayerStateE
  cases storeLookup st y with
  | none => rfl
  | some e =>
    dsimp only
    by_cases hc : e.isCustomLayer = true
    · rw [if_pos hc]
    · rw [if_neg hc]
      by_cases hbg : y = "Background"
      · rw [if_pos hbg]
      · rw [if_neg hbg]
        cases envGetLayer env y with
        | none => rfl
        | some layer =>
          dsimp only
          cases layoutE y with
          | error msg => rfl
          | ok vis =>
            dsimp only
            cases getLayerOpacityE paintE y layer.type with
            | error msg => rfl
            | ok o =>
              dsimp only
              rw [storeLookup_set]
              rw [if_neg h]

theorem updateOneLayerStateE_updates (env : Env) (layoutE : LayoutReaderE)
    (paintE : PaintReaderE) (st : List (String × LayerEntry)) (y : String)
    (e : LayerEntry) (layer : Layer) (vis : Option String) (o : Rat)
    (hy : storeLookup st y = some e)
    (hnc : e.isCustomLayer = false) (hbg : y ≠ "Background")
    (hlayer : envGetLayer env y = some layer)
    (hvis : layoutE y = Except.ok vis)
    (hop : getLayerOpacityE paintE y layer.type = Except.ok o) :
    updateOneLayerStateE env layoutE paintE st y =
      storeSet st y { e with visible := decide (vis ≠ some "none"), opacity := o } := by
  unfold updateOneLayerStateE
  rw [hy]
  dsimp only
  rw [if_neg (by rw [hnc]; exact Bool.false_ne_true), if_neg hbg, hlayer]
  dsimp only
  rw [hvis]
  dsimp only
  rw [hop]

theorem foldl_updateOneE_not_mem (env : Env) (layoutE : LayoutReaderE)
    (paintE : PaintReaderE) (l : List String) (st : List (String × LayerEntry))
    (x : String) (h : x ∉ l) :
    storeLookup (l.foldl (updateOneLayerStateE env layoutE paintE) st) x =
      storeLookup st x := by
  induction l generalizing st with
  | nil => rfl
  | cons y rest ih =>
    simp only [List.mem_cons] at h
    push_neg at h
    simp only [List.foldl_cons]
    rw [ih _ h.2, updateOneLayerStateE_lookup_ne env layoutE paintE st y x h.1]

theorem addPhaseE_append_ok (env : Env) (layoutE : LayoutReaderE) (paintE : PaintReaderE)
    (l1 l2 : List String) (st st' : List (String × LayerEntry))
    (h : addPhaseE env layoutE paintE l1 st = .ok st') :
    addPhaseE env layoutE paintE (l1 ++ l2) st = addPhaseE env layoutE paintE l2 st' := by
  induction l1 generalizing st with
  | nil =>
    injection h with h
    rw [List.nil_append, h]
  | cons lid rest ih =>
    simp only [List.cons_append]
    unfold addPhaseE at h
    conv_lhs => unfold addPhaseE
    cases hgl : envGetLayer env lid with
    | none =>
      rw [hgl] at h
      dsimp only at h ⊢
      exact ih _ h
    | some layer =>
      rw [hgl] at h
      dsimp only at h ⊢
      cases ho : getLayerOpacityE paintE lid layer.type with
      | error msg =>
        rw [ho] at h
        dsimp only at h
        exact Except.noConfusion h
      | ok o =>
        rw [ho] at h
        dsimp only at h ⊢
        cases hv : layoutE lid with
        | error msg =>
          rw [hv] at h
          dsimp only at h
          exact Except.noConfusion h
        | ok vis =>
          rw [hv] at h
          dsimp only at h ⊢
          exact ih _ h

/-- One reconciliation pass is idempotent on the store provided auto-detect
mode cannot flip (no explicit targets) and every custom-flagged entry is
still reported by the registry. -/
theorem reconcileStore_idempotent (env : Env) (tomb : List String)
    (s0 : List (String × LayerEntry))
    (hauto : env.targetLayers = [])
    (hnd : (storeKeys s0).Nodup)
    (hclean : ∀ p ∈ s0, p.2.isCustomLayer = true →
      env.customLayerIds.contains p.1 = true) :
    reconcileStore env tomb (reconcileStore env tomb s0) = reconcileStore env tomb s0 := by
  have habsent : ∀ x, storeLookup (reconcileStore env tomb s0) x = none →
      (env.mapLayers.map Layer.id).contains x = true → storeLookup s0 x = none := by
    intro x h4 hx
    cases h0 : storeLookup s0 x with
    | none => rfl
    | some e0 =>
      rw [reconcileStore_keeps env tomb s0 x e0 hclean h0 hx] at h4
      cases h4
  have hrem2 : removedNativeIds env (reconcileStore env tomb s0) = [] := by
    unfold removedNativeIds
    rw [List.filter_eq_nil_iff]
    intro x hx hpred
    obtain ⟨e, he⟩ := Option.isSome_iff_exists.mp (lookup_isSome_of_mem_keys _ x hx)
    rw [he] at hpred
    dsimp only at hpred
    simp only [Bool.and_eq_true] at hpred
    have hbg : x ≠ "Background" := of_decide_eq_true hpred.1.1
    have hnc : e.isCustomLayer = false := by
      have := hpred.1.2
      simp only [Bool.not_eq_true'] at this
      exact this
    have hcontF : (env.mapLayers.map Layer.id).contains x = false := by
      have := hpred.2
      simp only [Bool.not_eq_true'] at this
      exact this
    have hcontT := reconcileStore_noncustom_on_map env tomb s0 x e hnd he hnc hbg
    rw [hcontT] at hcontF
    exact Bool.noConfusion hcontF
  have hauto4 : isAutoDetectMode env (reconcileStore env tomb s0) = true :=
    isAutoDetectMode_of_no_targets env _ hauto
  have hnew2 : (dedupKeepFirst (env.mapLayers.map Layer.id)).filter
      (newLayerFilter env (reconcileStore env tomb s0)
        (isAutoDetectMode env (reconcileStore env tomb s0))) = [] := by
    rw [List.filter_eq_nil_iff]
    intro x hx hpred
    have hxmap : x ∈ env.mapLayers.map Layer.id := mem_of_mem_dedupKeepFirst _ x hx
    cases h4 : storeLookup (reconcileStore env tomb s0) x with
    | some e =>
      simp only [newLayerFilter, Bool.and_eq_true] at hpred
      have hn := hpred.1.2
      rw [h4] at hn
      exact Bool.noConfusion hn
    | none =>
      have h0 : storeLookup s0 x = none := habsent x h4 (contains_of_mem _ x hxmap)
      rw [hauto4, newLayerFilter_state_eq env _ s0 true x (by rw [h4, h0])] at hpred
      have hfil : newLayerFilter env s0 (isAutoDetectMode env s0) x = true := by
        rw [isAutoDetectMode_of_no_targets env s0 hauto]
        exact hpred
      obtain ⟨e, he, _⟩ := reconcileStore_adds env tomb s0 x hxmap hfil
      rw [he] at h4
      cases h4
  by_cases hr : env.hasRegistry = true
  · have hadd2 : customAddPhase env tomb (reconcileStore env tomb s0) =
        reconcileStore env tomb s0 := by
      unfold customAddPhase
      apply foldl_id_of_step_id
      intro lid hmem
      by_cases hc : (storeLookup (reconcileStore env tomb s0) lid).isNone = true
          ∧ ¬ tomb.contains lid = true
      · cases hcs : env.customLayerState lid with
        | none =>
          unfold customAddStep
          rw [if_pos hc, hcs]
        | some cs =>
          exfalso
          have htombF : tomb.contains lid = false := by
            rcases Bool.eq_false_or_eq_true (tomb.contains lid) with hf | ht
            · exact absurd hf hc.2
            · exact ht
          have hsome := reconcileStore_readds_custom env tomb s0 lid hr hmem
            (contains_of_mem _ lid hmem) htombF (by rw [hcs]; rfl)
          have hn := Option.isNone_iff_eq_none.mp hc.1
          rw [hn] at hsome
          exact Bool.noConfusion hsome
      · unfold customAddStep
        rw [if_neg hc]
    have hremph2 : customRemovePhase env (reconcileStore env tomb s0) =
        reconcileStore env tomb s0 := by
      unfold customRemovePhase
      apply foldl_id_of_step_id
      intro y hy
      obtain ⟨e, he⟩ := Option.isSome_iff_exists.mp (lookup_isSome_of_mem_keys _ y hy)
      have hcond : ¬ (e.isCustomLayer = true ∧ ¬ env.customLayerIds.contains y = true) := by
        intro hcc
        exact hcc.2 (reconcileStore_custom_in_registry env tomb s0 y e hnd hclean he hcc.1)
      unfold customRemoveStep
      rw [he]
      dsimp only
      rw [if_neg hcond]
    have hsplit : reconcileStore env tomb (reconcileStore env tomb s0) =
        customRemovePhase env (customAddPhase env tomb
          (nativePhases env (reconcileStore env tomb s0))) := by
      simp only [reconcileStore]
      rw [if_pos hr, if_pos hr]
    have hnat : nativePhases env (reconcileStore env tomb s0) =
        reconcileStore env tomb s0 := by
      simp only [nativePhases]
      rw [hrem2, hnew2]
      simp only [List.foldl_nil]
    rw [hsplit, hnat, hadd2, hremph2]
  · have hsplit : reconcileStore env tomb (reconcileStore env tomb s0) =
        nativePhases env (reconcileStore env tomb s0) := by
      simp only [reconcileStore]
      rw [if_neg hr, if_neg hr]
    have hnat : nativePhases env (reconcileStore env tomb s0) =
        reconcileStore env tomb s0 := by
      simp only [nativePhases]
      rw [hrem2, hnew2]
      simp only [List.foldl_nil]
    rw [hsplit, hnat]

/-- The fan-out fold of `toggleBackgroundVisibility` never touches
`layerStates` and appends exactly one layout write per non-user-added
style layer. -/
theorem toggleBg_fold (env : Env) (v : Bool) (L : List (String × LayerEntry)) :
    ∀ (layers : List Layer) (s : ControlState) (ws : List (String × String)),
    s.layerStates = L →
    (layers.foldl
      (fun acc layer =>
        if ¬ isUserAddedLayer env acc.1.layerStates layer.id then
          ({ acc.1 with
              backgroundLayerVisibility :=
                bgVisSet acc.1.backgroundLayerVisibility layer.id v },
           acc.2 ++ [(layer.id, if v then "visible" else "none")])
        else acc)
      (s, ws)).1.layerStates = L
    ∧ (layers.foldl
      (fun acc layer =>
        if ¬ isUserAddedLayer env acc.1.layerStates layer.id then
          ({ acc.1 with
              backgroundLayerVisibility :=
                bgVisSet acc.1.backgroundLayerVisibility layer.id v },
           acc.2 ++ [(layer.id, if v then "visible" else "none")])
        else acc)
      (s, ws)).2 =
      ws ++ (layers.filter
        (fun l => !isUserAddedLayer env L l.id)).map
        (fun l => (l.id, if v then "visible" else "none")) := by
  intro layers
  induction layers with
  | nil =>
    intro s ws hL
    exact ⟨hL, by simp⟩
  | cons l rest ih =>
    intro s ws hL
    rw [List.foldl_cons]
    dsimp only
    rw [hL]
    by_cases hu : isUserAddedLayer env L l.id = true
    · rw [if_neg (not_not_intro hu)]
      exact ⟨(ih s ws hL).1,
        ((ih s ws hL).2).trans (by simp [List.filter_cons, hu])⟩
    · rw [if_pos hu]
      refine ⟨(ih _ _ rfl).1, ((ih _ _ rfl).2).trans ?_⟩
      simp [List.filter_cons, hu]

/-- The fan-out fold of `changeBackgroundOpacity` appends, per
non-user-added style layer, the paint writes of `setLayerOpacity`. -/
theorem bgOpacity_fold (env : Env) (o : Rat) (L : List (String × LayerEntry)) :
    ∀ (layers : List Layer) (ws : List PaintWrite),
    layers.foldl
      (fun ws layer =>
        if ¬ isUserAddedLayer env L layer.id then
          match envGetLayer env layer.id with
          | some gl => ws ++ setLayerOpacity layer.id gl.type o
          | none => ws
        else ws) ws
    = ws ++ ((layers.filter (fun l => !isUserAddedLayer env L l.id)).map
        (fun l => match envGetLayer env l.id with
          | some gl => setLayerOpacity l.id gl.type o
          | none => [])).flatten := by
  intro layers
  induction layers with
  | nil => intro ws; simp
  | cons l rest ih =>
    intro ws
    rw [List.foldl_cons]
    by_cases hu : isUserAddedLayer env L l.id = true
    · rw [if_neg (not_not_intro hu)]
      exact (ih ws).trans (by simp [List.filter_cons, hu])
    · rw [if_pos hu]
      cases hgl : envGetLayer env l.id with
      | some gl =>
        dsimp only
        exact (ih _).trans (by simp [List.filter_cons, hu, hgl])
      | none =>
        dsimp only
        exact (ih _).trans (by simp [List.filter_cons, hu, hgl])

/-- The flags fold of `updateBackgroundCheckboxState` computes `any member
cached visible` and `all members not cached hidden` over the
non-user-added style layers. -/
theorem bgFlags_fold (env : Env) (L : List (String × LayerEntry))
    (cache : List (String × Bool)) :
    ∀ (layers : List Layer) (a b : Bool),
    layers.foldl
      (fun (acc : Bool × Bool) layer =>
        if ¬ isUserAddedLayer env L layer.id then
          let visible := bgVisGet cache layer.id
          (acc.1 || decide (visible = some true),
           acc.2 && ! decide (visible = some false))
        else acc)
      (a, b)
    = (a || layers.any (fun l => !isUserAddedLayer env L l.id &&
          decide (bgVisGet cache l.id = some true)),
       b && layers.all (fun l => isUserAddedLayer env L l.id ||
          ! decide (bgVisGet cache l.id = some false))) := by
  intro layers
  induction layers with
  | nil => intro a b; simp
  | cons l rest ih =>
    intro a b
    rw [List.foldl_cons]
    dsimp only
    by_cases hu : isUserAddedLayer env L l.id = true
    · rw [if_neg (by simp [hu]), ih]
      simp [hu]
    · rw [if_pos (by simp [hu]), ih]
      simp [hu, Bool.or_assoc, Bool.and_assoc]

/-- `toggleBackgroundVisibility` stores the value on the Background entry
and fans the layout write out to every non-user-added style layer. -/
theorem toggleBackgroundVisibility_spec (env : Env) (c : ControlState)
    (e : LayerEntry) (v : Bool)
    (hE : storeLookup c.layerStates "Background" = some e) :
    (toggleBackgroundVisibility env c v).1.layerStates =
      storeSet c.layerStates "Background" { e with visible := v }
    ∧ (toggleBackgroundVisibility env c v).2 =
      (env.mapLayers.filter
        (fun l => !isUserAddedLayer env
          (storeSet c.layerStates "Background" { e with visible := v }) l.id)).map
        (fun l => (l.id, if v then "visible" else "none")) := by
  unfold toggleBackgroundVisibility
  rw [hE]
  dsimp only
  constructor
  · exact (toggleBg_fold env v
      (storeSet c.layerStates "Background" { e with visible := v })
      env.mapLayers _ [] rfl).1
  · rw [(toggleBg_fold env v
      (storeSet c.layerStates "Background" { e with visible := v })
      env.mapLayers _ [] rfl).2]
    simp

/-- `changeBackgroundOpacity` stores the value on the Background entry and
fans the paint writes out to every non-user-added style layer. -/
theorem changeBackgroundOpacity_spec (env : Env) (c : ControlState)
    (e : LayerEntry) (o : Rat)
    (hE : storeLookup c.layerStates "Background" = some e) :
    (changeBackgroundOpacity env c o).1.layerStates =
      storeSet c.layerStates "Background" { e with opacity := o }
    ∧ (changeBackgroundOpacity env c o).2 =
      ((env.mapLayers.filter
        (fun l => !isUserAddedLayer env
          (storeSet c.layerStates "Background" { e with opacity := o }) l.id)).map
        (fun l => match envGetLayer env l.id with
          | some gl => setLayerOpacity l.id gl.type o
          | none => [])).flatten := by
  unfold changeBackgroundOpacity
  rw [hE]
  dsimp only
  refine ⟨rfl, ?_⟩
  rw [bgOpacity_fold env o
    (storeSet c.layerStates "Background" { e with opacity := o })
    env.mapLayers []]
  simp

/-- `updateLayerStatesFromMap` never touches the style-operation guard. -/
theorem updateLayerStatesFromMap_guard (env : Env) (c : ControlState) :
    (updateLayerStatesFromMap env c).isStyleOperationInProgress =
      c.isStyleOperationInProgress := by
  unfold updateLayerStatesFromMap
  split <;> rfl

/-- `checkForNewLayers` never touches the style-operation guard. -/
theorem checkForNewLayers_guard (env : Env) (c : ControlState) :
    (checkForNewLayers env c).isStyleOperationInProgress =
      c.isStyleOperationInProgress := by
  unfold checkForNewLayers
  split <;> rfl

/-- While the guard is up, `checkForNewLayers` is the identity: zero
layer-state store writes. -/
theorem checkForNewLayers_guard_up (env : Env) (c : ControlState)
    (h : c.isStyleOperationInProgress = true) :
    checkForNewLayers env c = c := by
  unfold checkForNewLayers
  rw [if_pos h]

/-- The guard-clearing callback only lowers the flag. -/
theorem fireCb_clearGuard (env : Env) (s : Sys) :
    fireCb env s Cb.clearGuard =
      { s with ctl := { s.ctl with isStyleOperationInProgress := false } } := rfl

/-- A reconcile callback fired while the guard is up only runs the
unguarded state sync; the pass body is skipped and not counted. -/
theorem fireCb_reconcile_guard_true (env : Env) (s : Sys)
    (h : s.ctl.isStyleOperationInProgress = true) :
    fireCb env s Cb.reconcile =
      { s with ctl := updateLayerStatesFromMap env s.ctl } := by
  unfold fireCb
  dsimp only
  rw [if_pos (by rw [updateLayerStatesFromMap_guard]; exact h)]

/-- A reconcile callback fired while the guard is down runs the full pass
and counts it. -/
theorem fireCb_reconcile_guard_false (env : Env) (s : Sys)
    (h : s.ctl.isStyleOperationInProgress = false) :
    fireCb env s Cb.reconcile =
      { s with ctl := checkForNewLayers env (updateLayerStatesFromMap env s.ctl),
               passesRun := s.passesRun + 1 } := by
  unfold fireCb
  dsimp only
  rw [if_neg (by rw [updateLayerStatesFromMap_guard, h]; simp)]

/-- A mutation on a non-Background layer raises the guard, schedules only
the guard-clearing timeout and runs no pass. -/
theorem toggleLayerVisibilitySys_props (now : Nat) (s : Sys) (layerId : String)
    (visible : Bool) (h : layerId ≠ "Background") :
    (toggleLayerVisibilitySys now s layerId visible).ctl.isStyleOperationInProgress = true
    ∧ (toggleLayerVisibilitySys now s layerId visible).timers =
        s.timers ++ [(now + 200, Cb.clearGuard)]
    ∧ (toggleLayerVisibilitySys now s layerId visible).passesRun = s.passesRun := by
  unfold toggleLayerVisibilitySys
  rw [if_neg h]
  dsimp only
  refine ⟨?_, rfl, rfl⟩
  cases storeLookup s.ctl.layerStates layerId <;> rfl

/-- `popEarliest` returns none only on the empty timer list. -/
theorem popEarliest_eq_none (l : List (Nat × Cb)) (h : popEarliest l = none) :
    l = [] := by
  cases l with
  | nil => rfl
  | cons a l' =>
    exfalso
    simp only [popEarliest] at h
    cases hp : popEarliest l' with
    | none => rw [hp] at h; simp at h
    | some p =>
      obtain ⟨u, rest'⟩ := p
      rw [hp] at h
      dsimp only at h
      by_cases hle : a.1 ≤ u.1
      · rw [if_pos hle] at h; simp at h
      · rw [if_neg hle] at h; simp at h

/-- `popEarliest` pops a member and leaves one fewer timer, all of them
members of the original list. -/
theorem popEarliest_spec (l : List (Nat × Cb)) :
    ∀ (t : Nat × Cb) (rest : List (Nat × Cb)),
    popEarliest l = some (t, rest) →
    t ∈ l ∧ rest.length + 1 = l.length ∧ ∀ u ∈ rest, u ∈ l := by
  induction l with
  | nil =>
    intro t rest h
    simp [popEarliest] at h
  | cons a l' ih =>
    intro t rest h
    simp only [popEarliest] at h
    cases hp : popEarliest l' with
    | none =>
      rw [hp] at h
      simp only [Option.some.injEq, Prod.mk.injEq] at h
      obtain ⟨rfl, rfl⟩ := h
      exact ⟨by simp, by simp, fun u hu => by simp [hu]⟩
    | some p =>
      obtain ⟨u, rest'⟩ := p
      rw [hp] at h
      dsimp only at h
      by_cases hle : a.1 ≤ u.1
      · rw [if_pos hle] at h
        simp only [Option.some.injEq, Prod.mk.injEq] at h
        obtain ⟨rfl, rfl⟩ := h
        exact ⟨by simp, by simp, fun v hv => by simp [hv]⟩
      · rw [if_neg hle] at h
        simp only [Option.some.injEq, Prod.mk.injEq] at h
        obtain ⟨rfl, rfl⟩ := h
        obtain ⟨hmem, hlen, hsub⟩ := ih u rest' hp
        refine ⟨List.mem_cons_of_mem _ hmem, ?_, ?_⟩
        · simp only [List.length_cons]
          omega
        · intro v hv
          rcases List.mem_cons.mp hv with h1 | h2
          · subst h1; exact List.mem_cons_self _ _
          · exact List.mem_cons_of_mem _ (hsub v h2)

/-- One event-loop step of the drain. -/
theorem drainFuel_step (env : Env) (fuel : Nat) (s : Sys) (t : Nat × Cb)
    (rest : List (Nat × Cb)) (hp : popEarliest s.timers = some (t, rest)) :
    drainFuel env (Nat.succ fuel) s =
      drainFuel env fuel (fireCb env { s with timers := rest } t.2) := by
  simp only [drainFuel]
  rw [hp]

/-- Draining a queue of reconcile timers with the guard down runs one
counted pass per timer and keeps the guard down. -/
theorem drainFuel_reconcile_count (env : Env) :
    ∀ (fuel : Nat) (s : Sys),
    s.timers.length ≤ fuel →
    s.ctl.isStyleOperationInProgress = false →
    (∀ t ∈ s.timers, t.2 = Cb.reconcile) →
    (drainFuel env fuel s).passesRun = s.passesRun + s.timers.length
    ∧ (drainFuel env fuel s).timers = []
    ∧ (drainFuel env fuel s).ctl.isStyleOperationInProgress = false := by
  intro fuel
  induction fuel with
  | zero =>
    intro s hle hg _hall
    have ht : s.timers = [] := List.length_eq_zero.mp (Nat.le_zero.mp hle)
    simp only [drainFuel]
    simp [ht, hg]
  | succ fuel ih =>
    intro s hle hg hall
    cases hp : popEarliest s.timers with
    | none =>
      have ht : s.timers = [] := popEarliest_eq_none s.timers hp
      simp only [drainFuel]
      rw [hp]
      simp [ht, hg]
    | some p =>
      obtain ⟨t, rest⟩ := p
      obtain ⟨hmem, hlen, hsub⟩ := popEarliest_spec s.timers t rest hp
      rw [drainFuel_step env fuel s t rest hp, hall t hmem,
        fireCb_reconcile_guard_false env { s with timers := rest } hg]
      have hle2 : rest.length ≤ fuel := by omega
      have hg2 : (checkForNewLayers env
          (updateLayerStatesFromMap env s.ctl)).isStyleOperationInProgress = false := by
        rw [checkForNewLayers_guard, updateLayerStatesFromMap_guard]
        exact hg
      have hall2 : ∀ u ∈ rest, u.2 = Cb.reconcile := fun u hu => hall u (hsub u hu)
      obtain ⟨h1, h2, h3⟩ := ih
        { ctl := checkForNewLayers env (updateLayerStatesFromMap env s.ctl),
          timers := rest, passesRun := s.passesRun + 1 }
        hle2 hg2 hall2
      refine ⟨h1.trans ?_, h2, h3⟩
      show s.passesRun + 1 + rest.length = s.passesRun + s.timers.length
      omega

/-- `updateBackgroundCheckboxState` derives checked and indeterminate from
the member visibility cache and stores the derived checked flag on the
Background entry. -/
theorem updateBackgroundCheckboxState_spec (env : Env) (c : ControlState)
    (e : LayerEntry)
    (hE : storeLookup c.layerStates "Background" = some e) :
    (updateBackgroundCheckboxState env c).2.1 =
      env.mapLayers.any (fun l => !isUserAddedLayer env c.layerStates l.id &&
        decide (bgVisGet c.backgroundLayerVisibility l.id = some true))
    ∧ (updateBackgroundCheckboxState env c).2.2 =
      (env.mapLayers.any (fun l => !isUserAddedLayer env c.layerStates l.id &&
        decide (bgVisGet c.backgroundLayerVisibility l.id = some true)) &&
       !(env.mapLayers.all (fun l => isUserAddedLayer env c.layerStates l.id ||
        ! decide (bgVisGet c.backgroundLayerVisibility l.id = some false))))
    ∧ (updateBackgroundCheckboxState env c).1.layerStates =
      storeSet c.layerStates "Background"
        { e with visible :=
            env.mapLayers.any (fun l => !isUserAddedLayer env c.layerStates l.id &&
              decide (bgVisGet c.backgroundLayerVisibility l.id = some true)) } := by
  unfold updateBackgroundCheckboxState
  rw [hE]
  dsimp only
  rw [bgFlags_fold env c.layerStates c.backgroundLayerVisibility env.mapLayers false true]
  dsimp only
  refine ⟨by simp, by simp, by simp⟩

end LayerControlSpec


open LayerControlSpec

/-- C10: for layer type "color-relief", `getOpacityProperty` returns null,
`getLayerOpacity` always returns 1.0 and `setLayerOpacity` performs no
paint write; for a layer type outside the known switch cases
`getOpacityProperty` returns the type name suffixed with "-opacity";
for "symbol", `setLayerOpacity` writes both "icon-opacity" and
"text-opacity" while `getLayerOpacity` reads only "icon-opacity". -/
theorem c10_opacity_property_mapping
    (t layerId : String) (paint paint2 : PaintReader) (o : Rat)
    (ht : t ∉ knownOpacityTypes)
    (hp : paint layerId "icon-opacity" = paint2 layerId "icon-opacity") :
    getOpacityProperty "color-relief" = OpacityProp.nul
    ∧ getLayerOpacity paint layerId "color-relief" = 1
    ∧ setLayerOpacity layerId "color-relief" o = []
    ∧ getOpacityProperty t = OpacityProp.str (t ++ "-opacity")
    ∧ setLayerOpacity layerId "symbol" o =
        [⟨layerId, "icon-opacity", o⟩, ⟨layerId, "text-opacity", o⟩]
    ∧ getLayerOpacity paint layerId "symbol" = getLayerOpacity paint2 layerId "symbol"
    ∧ getLayerOpacity paint layerId "symbol" = (paint layerId "icon-opacity").getD 1 := by
  simp only [knownOpacityTypes, List.mem_cons, List.not_mem_nil, or_false] at ht
  push_neg at ht
  obtain ⟨h1, h2, h3, h4, h5, h6, h7, h8, h9, h10⟩ := ht
  refine ⟨rfl, rfl, rfl, ?_, rfl, ?_, ?_⟩
  · simp only [getOpacityProperty, if_neg h1, if_neg h2, if_neg h3, if_neg h4,
      if_neg h5, if_neg h6, if_neg h7, if_neg h8, if_neg h9, if_neg h10]
  · have hs : getOpacityProperty "symbol" = OpacityProp.arr ["icon-opacity", "text-opacity"] :=
      rfl
    simp only [getLayerOpacity, hs]
    rw [hp]
  · have hs : getOpacityProperty "symbol" = OpacityProp.arr ["icon-opacity", "text-opacity"] :=
      rfl
    simp only [getLayerOpacity, hs]
    cases h : paint layerId "icon-opacity" <;> simp [h]

/-- Witness for C10 at concrete inputs. -/
theorem c10_opacity_property_mapping_witness :
    getOpacityProperty "color-relief" = OpacityProp.nul
    ∧ getLayerOpacity (fun _ p => if p = "icon-opacity" then some (1/2) else some (1/4))
        "lyr" "color-relief" = 1
    ∧ setLayerOpacity "lyr" "color-relief" (3/4) = []
    ∧ getOpacityProperty "zarr" = OpacityProp.str ("zarr" ++ "-opacity")
    ∧ setLayerOpacity "lyr" "symbol" (3/4) =
        [⟨"lyr", "icon-opacity", 3/4⟩, ⟨"lyr", "text-opacity", 3/4⟩]
    ∧ getLayerOpacity (fun _ p => if p = "icon-opacity" then some (1/2) else some (1/4))
        "lyr" "symbol"
      = getLayerOpacity (fun _ p => if p = "icon-opacity" then some (1/2) else none)
        "lyr" "symbol"
    ∧ getLayerOpacity (fun _ p => if p = "icon-opacity" then some (1/2) else some (1/4))
        "lyr" "symbol"
      = ((fun (_ : String) (p : String) =>
            if p = "icon-opacity" then some ((1 : Rat)/2) else some (1/4)) "lyr"
          "icon-opacity").getD 1 :=
  c10_opacity_property_mapping "zarr" "lyr"
    (fun _ p => if p = "icon-opacity" then some (1/2) else some (1/4))
    (fun _ p => if p = "icon-opacity" then some (1/2) else none)
    (3/4) (by decide) rfl

/-- C1 counterexample: for an adapter whose `setVisibility` throws, the
registry call propagates the exception instead of returning
`handled = false`; same for `setOpacity` and `getLayerState`. -/
theorem c1_registry_swallows_counterexample :
    registrySetVisibility [throwingAdapter] "cog-1" true = Except.error "boom"
    ∧ registrySetVisibility [throwingAdapter] "cog-1" true ≠ Except.ok false
    ∧ registrySetOpacity [throwingAdapter] "cog-1" (1/2) = Except.error "boom"
    ∧ registryGetLayerState [throwingAdapter] "cog-1" = Except.error "boom" :=
  ⟨rfl, fun h => by
    simp [registrySetVisibility, getAdapterForLayer, throwingAdapter, Except.map] at h,
    rfl, rfl⟩

/-- C1 amended: when the owning adapter's read/write method throws, the
registry propagates that exception unchanged to the caller; the registry
returns `handled = false` (without throwing) when no adapter manages the
layer id. -/
theorem c1_registry_error_propagation
    (adapters : List CustomLayerAdapter) (layerId otherId : String) (v : Bool) (o : Rat)
    (a : CustomLayerAdapter) (e : String)
    (hsome : getAdapterForLayer adapters layerId = some a)
    (hv : a.setVisibilityFn layerId v = Except.error e)
    (ho : a.setOpacityFn layerId o = Except.error e)
    (hs : a.getLayerStateFn layerId = Except.error e)
    (hnone : getAdapterForLayer adapters otherId = none) :
    registrySetVisibility adapters layerId v = Except.error e
    ∧ registrySetOpacity adapters layerId o = Except.error e
    ∧ registryGetLayerState adapters layerId = Except.error e
    ∧ registrySetVisibility adapters otherId v = Except.ok false
    ∧ registrySetOpacity adapters otherId o = Except.ok false
    ∧ registryGetLayerState adapters otherId = Except.ok none := by
  refine ⟨?_, ?_, ?_, ?_, ?_, ?_⟩ <;>
    simp [registrySetVisibility, registrySetOpacity, registryGetLayerState,
      hsome, hnone, hv, ho, hs, Except.map]

/-- Witness for C1's amended theorem at concrete inputs. -/
theorem c1_registry_error_propagation_witness :
    registrySetVisibility [throwingAdapter] "cog-1" true = Except.error "boom"
    ∧ registrySetOpacity [throwingAdapter] "cog-1" (1/2) = Except.error "boom"
    ∧ registryGetLayerState [throwingAdapter] "cog-1" = Except.error "boom"
    ∧ registrySetVisibility [throwingAdapter] "other" true = Except.ok false
    ∧ registrySetOpacity [throwingAdapter] "other" (1/2) = Except.ok false
    ∧ registryGetLayerState [throwingAdapter] "other" = Except.ok none :=
  c1_registry_error_propagation [throwingAdapter] "cog-1" "other" true (1/2)
    throwingAdapter "boom" rfl rfl rfl rfl rfl

/-- C4: in auto-detect mode, once `basemapLayerIds` is populated and
non-empty, a non-excluded layer id is classified Background exactly when it
is a member of that set, and the source-based heuristics
(`detectUserAddedSources`, which holds the initial-source snapshot and the
tile-URL domain tests) are never consulted: the result is identical for any
two heuristic outcomes. -/
theorem c4_basemap_membership_authoritative
    (ctx : ClassifyCtx) (userSrc1 userSrc2 : List String)
    (layers : List Layer) (layerId : String) (bs : List String)
    (hauto : ctx.targetLayers = [])
    (hbs : ctx.basemapLayerIds = some bs)
    (hne : bs ≠ [])
    (hfound : (getLayer layers layerId).isSome)
    (hdrawn : ctx.excludeDrawnLayers = true → isDrawnLayer layerId = false)
    (hexcl : isExcludedByPattern ctx.excludePatterns layerId = false) :
    classifyLayer ctx userSrc1 layers layerId =
      (if bs.contains layerId then LayerClass.background else LayerClass.individual)
    ∧ classifyLayer ctx userSrc1 layers layerId = classifyLayer ctx userSrc2 layers layerId := by
  obtain ⟨layer, hl⟩ := Option.isSome_iff_exists.mp hfound
  have hdr : (ctx.excludeDrawnLayers && isDrawnLayer layerId) = false := by
    cases hExDr : ctx.excludeDrawnLayers with
    | false => simp
    | true => simp [hdrawn hExDr]
  have hbne : bs.isEmpty = false := by
    cases bs with
    | nil => exact absurd rfl hne
    | cons x xs => rfl
  constructor
  · simp [classifyLayer, hauto, classifyLayerAuto, hl, hdr, hexcl, hbs, hbne]
  · simp [classifyLayer, hauto, classifyLayerAuto, hl, hdr, hexcl, hbs, hbne]

/-- Witness for C4 at concrete inputs: the spec's own scenario layer ids. -/
theorem c4_basemap_membership_authoritative_witness :
    classifyLayer
      ⟨[], true, [], some ["basemap-water", "basemap-roads"]⟩
      [] [⟨"basemap-water", "fill", some "bsrc"⟩, ⟨"user-fill-1", "fill", some "usrc"⟩]
      "user-fill-1" =
      (if ["basemap-water", "basemap-roads"].contains "user-fill-1"
        then LayerClass.background else LayerClass.individual)
    ∧ classifyLayer
        ⟨[], true, [], some ["basemap-water", "basemap-roads"]⟩
        [] [⟨"basemap-water", "fill", some "bsrc"⟩, ⟨"user-fill-1", "fill", some "usrc"⟩]
        "user-fill-1" =
      classifyLayer
        ⟨[], true, [], some ["basemap-water", "basemap-roads"]⟩
        ["usrc"] [⟨"basemap-water", "fill", some "bsrc"⟩, ⟨"user-fill-1", "fill", some "usrc"⟩]
        "user-fill-1" :=
  c4_basemap_membership_authoritative
    ⟨[], true, [], some ["basemap-water", "basemap-roads"]⟩
    [] ["usrc"]
    [⟨"basemap-water", "fill", some "bsrc"⟩, ⟨"user-fill-1", "fill", some "usrc"⟩]
    "user-fill-1" ["basemap-water", "basemap-roads"]
    rfl rfl (by decide) (by decide) (fun _ => by decide) (by decide)

/-- C5 counterexample: with explicit targets `["temp-1"]` and exclusion
pattern `"temp-*"`, the targeted id "temp-1" is classified Background, not
Individual — classification in explicit mode is not independent of the
exclusion patterns. -/
theorem c5_explicit_targets_counterexample :
    classifyLayer ⟨["temp-1"], true, ["temp-*"], none⟩ []
        [⟨"temp-1", "fill", none⟩] "temp-1" = LayerClass.background
    ∧ classifyLayer ⟨["temp-1"], true, ["temp-*"], none⟩ []
        [⟨"temp-1", "fill", none⟩] "temp-1" ≠ LayerClass.individual := by
  refine ⟨by decide, by decide⟩

/-- C5 amended: whenever the explicit target list is non-empty,
classification yields Individual exactly for the ids in the list that match
no exclusion pattern and Background for every other id; it is independent
of `basemapLayerIds`, `excludeDrawnLayers`, the map snapshot and the source
heuristics — but not of the exclusion patterns, which are checked first. -/
theorem c5_explicit_targets_shortcircuit
    (ctx ctx2 : ClassifyCtx) (userSrc1 userSrc2 : List String)
    (layers1 layers2 : List Layer) (layerId : String)
    (hne : ctx.targetLayers ≠ [])
    (ht : ctx2.targetLayers = ctx.targetLayers)
    (hp : ctx2.excludePatterns = ctx.excludePatterns) :
    classifyLayer ctx userSrc1 layers1 layerId =
      (if isExcludedByPattern ctx.excludePatterns layerId then LayerClass.background
       else if ctx.targetLayers.contains layerId then LayerClass.individual
       else LayerClass.background)
    ∧ classifyLayer ctx userSrc1 layers1 layerId = classifyLayer ctx userSrc2 layers2 layerId
    ∧ classifyLayer ctx2 userSrc1 layers1 layerId = classifyLayer ctx userSrc1 layers1 layerId := by
  have hne2 : ctx2.targetLayers ≠ [] := by rw [ht]; exact hne
  refine ⟨?_, ?_, ?_⟩ <;>
    simp [classifyLayer, if_neg hne, if_neg hne2, classifyLayerExplicit, ht, hp]

/-- Witness for C5's amended theorem at concrete inputs. -/
theorem c5_explicit_targets_shortcircuit_witness :
    classifyLayer ⟨["user-fill-1"], true, ["temp-*"], none⟩ []
        [⟨"user-fill-1", "fill", none⟩] "user-fill-1" =
      (if isExcludedByPattern ["temp-*"] "user-fill-1" then LayerClass.background
       else if ["user-fill-1"].contains "user-fill-1" then LayerClass.individual
       else LayerClass.background)
    ∧ classifyLayer ⟨["user-fill-1"], true, ["temp-*"], none⟩ []
        [⟨"user-fill-1", "fill", none⟩] "user-fill-1" =
      classifyLayer ⟨["user-fill-1"], true, ["temp-*"], none⟩ ["src-a"] [] "user-fill-1"
    ∧ classifyLayer ⟨["user-fill-1"], false, ["temp-*"], some ["user-fill-1"]⟩ []
        [⟨"user-fill-1", "fill", none⟩] "user-fill-1" =
      classifyLayer ⟨["user-fill-1"], true, ["temp-*"], none⟩ []
        [⟨"user-fill-1", "fill", none⟩] "user-fill-1" :=
  c5_explicit_targets_shortcircuit
    ⟨["user-fill-1"], true, ["temp-*"], none⟩
    ⟨["user-fill-1"], false, ["temp-*"], some ["user-fill-1"]⟩
    [] ["src-a"] [⟨"user-fill-1", "fill", none⟩] [] "user-fill-1"
    (by decide) rfl rfl

/-- C3: once `removeLayer(id)` has tombstoned a custom layer id, no later
reconciliation pass re-creates its entry — even while the adapter still
reports the id — until a fresh "add" change event clears the tombstone,
after which the next pass re-creates the entry. The pipeline below chains
the code paths: `removeLayerCtl` (the guard-clear timer then lowers the
flag), any number of passes, the registry `onChange` "add" handler, one
more pass. -/
theorem c3_tombstone_blocks_readd
    (env1 env3 : Env) (envs : List Env) (c0 : ControlState)
    (id : String) (e : LayerEntry)
    (hid : id ≠ "")
    (hnd : (storeKeys c0.layerStates).Nodup)
    (h0 : storeLookup c0.layerStates id = some e)
    (hcust : e.isCustomLayer = true)
    (hreg1 : env1.hasRegistry = true)
    (hmaps : ∀ env ∈ envs, (env.mapLayers.map Layer.id).contains id = false)
    (hreg3 : env3.hasRegistry = true)
    (hcont3 : env3.customLayerIds.contains id = true)
    (hmem3 : id ∈ env3.customLayerIds)
    (hstate3 : (env3.customLayerState id).isSome) :
    storeLookup (removeLayerCtl env1 c0 id).layerStates id = none
    ∧ (removeLayerCtl env1 c0 id).removedCustomLayerIds.contains id = true
    ∧ storeLookup (runPasses envs
        { removeLayerCtl env1 c0 id with isStyleOperationInProgress := false
        }).layerStates id = none
    ∧ (runPasses envs
        { removeLayerCtl env1 c0 id with isStyleOperationInProgress := false
        }).removedCustomLayerIds.contains id = true
    ∧ (onCustomLayerChange (runPasses envs
        { removeLayerCtl env1 c0 id with isStyleOperationInProgress := false })
        "add" id).removedCustomLayerIds.contains id = false
    ∧ (storeLookup (checkForNewLayers env3 (onCustomLayerChange (runPasses envs
        { removeLayerCtl env1 c0 id with isStyleOperationInProgress := false })
        "add" id)).layerStates id).isSome := by
  have hdel : storeLookup (removeLayerCtl env1 c0 id).layerStates id = none := by
    unfold removeLayerCtl
    exact storeLookup_delete_self c0.layerStates id hnd
  have htomb1 : (removeLayerCtl env1 c0 id).removedCustomLayerIds.contains id = true := by
    unfold removeLayerCtl
    simp only [h0, hcust, hreg1, Bool.and_self, if_pos rfl]
    by_cases hc : c0.removedCustomLayerIds.contains id = true
    · simp only [if_pos hc]
      exact hc
    · rw [if_neg hc]
      simp
  have hrun := runPasses_tombstone_invariant envs
    { removeLayerCtl env1 c0 id with isStyleOperationInProgress := false } id hmaps
    htomb1 hdel
  have hcleared : (onCustomLayerChange (runPasses envs
      { removeLayerCtl env1 c0 id with isStyleOperationInProgress := false })
      "add" id).removedCustomLayerIds.contains id = false := by
    unfold onCustomLayerChange
    rw [if_pos ⟨rfl, hid⟩]
    exact contains_filter_ne_self _ id
  refine ⟨hdel, htomb1, hrun.1, hrun.2, hcleared, ?_⟩
  set c3 := onCustomLayerChange (runPasses envs
      { removeLayerCtl env1 c0 id with isStyleOperationInProgress := false }) "add" id
    with hc3
  have hg3 : c3.isStyleOperationInProgress = false := by
    rw [hc3, (onCustomLayerChange_fields _ _ _).2]
    have : ∀ (es : List Env) (c : ControlState),
        (runPasses es c).isStyleOperationInProgress = c.isStyleOperationInProgress := by
      intro es
      induction es with
      | nil => intro c; rfl
      | cons e' rest ih =>
        intro c
        show (runPasses rest (checkForNewLayers e' c)).isStyleOperationInProgress = _
        rw [ih (checkForNewLayers e' c), (checkForNewLayers_fields e' c).1]
    rw [this]
  have htomb3 : c3.removedCustomLayerIds.contains id = false := hcleared
  unfold checkForNewLayers
  rw [if_neg (by rw [hg3]; exact Bool.false_ne_true)]
  exact reconcileStore_readds_custom env3 c3.removedCustomLayerIds c3.layerStates id
    hreg3 hmem3 hcont3 htomb3 hstate3

/-- Witness for C3 at concrete inputs: the spec's own "cog-1" scenario. -/
theorem c3_tombstone_blocks_readd_witness :
    storeLookup (removeLayerCtl cogEnv cogState0 "cog-1").layerStates "cog-1" = none
    ∧ (removeLayerCtl cogEnv cogState0 "cog-1").removedCustomLayerIds.contains "cog-1" = true
    ∧ storeLookup (runPasses [cogEnv]
        { removeLayerCtl cogEnv cogState0 "cog-1" with isStyleOperationInProgress := false
        }).layerStates "cog-1" = none
    ∧ (runPasses [cogEnv]
        { removeLayerCtl cogEnv cogState0 "cog-1" with isStyleOperationInProgress := false
        }).removedCustomLayerIds.contains "cog-1" = true
    ∧ (onCustomLayerChange (runPasses [cogEnv]
        { removeLayerCtl cogEnv cogState0 "cog-1" with isStyleOperationInProgress := false })
        "add" "cog-1").removedCustomLayerIds.contains "cog-1" = false
    ∧ (storeLookup (checkForNewLayers cogEnv (onCustomLayerChange (runPasses [cogEnv]
        { removeLayerCtl cogEnv cogState0 "cog-1" with isStyleOperationInProgress := false })
        "add" "cog-1")).layerStates "cog-1").isSome :=
  c3_tombstone_blocks_readd cogEnv cogEnv [cogEnv] cogState0 "cog-1" cogEntry
    (by decide) (by decide) rfl rfl rfl
    (by
      intro env henv
      rw [List.mem_singleton] at henv
      subst henv
      rfl)
    rfl rfl (by decide) (by decide)

/-- C6 counterexample: with explicit target "a" (present in the store but
gone from the map) and a drawing-tool layer on the map, the first pass
removes "a" — flipping `isAutoDetectMode` to false — and the second pass
then adds the drawing-tool layer the first pass had filtered out: a store
mutation on the second of two back-to-back passes over a fixed snapshot. -/
theorem c6_idempotence_counterexample :
    checkForNewLayers drawEnv (checkForNewLayers drawEnv drawState0) ≠
      checkForNewLayers drawEnv drawState0
    ∧ (checkForNewLayers drawEnv drawState0).layerStates = []
    ∧ storeLookup (checkForNewLayers drawEnv (checkForNewLayers drawEnv
        drawState0)).layerStates "gl-draw-point" =
      some { visible := true, opacity := 1, name := "Draw Point" } := by
  refine ⟨by decide, by decide, by decide⟩

/-- C6 amended: running `checkForNewLayers` twice back-to-back over a fixed
map/adapter snapshot produces no store mutation on the second run, provided
(a) no explicit target list is configured (`targetLayers` empty, so the
auto-detect-mode predicate cannot flip between the passes) and (b) every
store entry flagged custom is still reported by the registry. -/
theorem c6_reconciliation_idempotent (env : Env) (c : ControlState)
    (hauto : env.targetLayers = [])
    (hnd : (storeKeys c.layerStates).Nodup)
    (hclean : ∀ p ∈ c.layerStates, p.2.isCustomLayer = true →
      env.customLayerIds.contains p.1 = true) :
    checkForNewLayers env (checkForNewLayers env c) = checkForNewLayers env c := by
  by_cases hg : c.isStyleOperationInProgress = true
  · have h1 : checkForNewLayers env c = c := by
      unfold checkForNewLayers
      rw [if_pos hg]
    rw [h1, h1]
  · have h1 : checkForNewLayers env c =
        { c with layerStates := reconcileStore env c.removedCustomLayerIds c.layerStates } := by
      unfold checkForNewLayers
      rw [if_neg hg]
    rw [h1]
    unfold checkForNewLayers
    rw [if_neg hg]
    dsimp only
    rw [reconcileStore_idempotent env c.removedCustomLayerIds c.layerStates hauto hnd hclean]

/-- Witness for C6's amended theorem at concrete inputs. -/
theorem c6_reconciliation_idempotent_witness :
    checkForNewLayers cogEnv (checkForNewLayers cogEnv cogState0) =
      checkForNewLayers cogEnv cogState0 :=
  c6_reconciliation_idempotent cogEnv cogState0 rfl (by decide) (by decide)

/-- C8 counterexample: in `checkForNewLayersE` the try/catch wraps the
whole pass; a throw while reading layer "alpha"'s opacity prevents the
independent layer "beta" from being processed in that pass (with
non-throwing reads "beta" is added), so the exception is not caught
per-entry. -/
theorem c8_per_entry_catch_counterexample :
    storeLookup (checkForNewLayersE twoLayerEnv layoutOk paintFailAlpha
      emptyCtl).layerStates "beta" = none
    ∧ storeLookup (checkForNewLayersE twoLayerEnv layoutOk
        (fun _ _ => .ok (some 0)) emptyCtl).layerStates "beta" =
      some { visible := true, opacity := 0, name := "Beta" } :=
  ⟨by decide, by decide⟩

/-- C8 amended: `updateLayerStatesFromMap` catches read failures per entry
— an entry whose own reads succeed is updated regardless of any other
entry's reads throwing; but in `checkForNewLayers` a single try/catch
wraps the whole pass, so a throw while reading one new layer's details
ends the pass: the mutations made before the throw are kept, every later
layer is left unprocessed, and no exception escapes. -/
theorem c8_outer_catch_aborts_pass
    (env : Env) (layoutE : LayoutReaderE) (paintE : PaintReaderE)
    (c c2 : ControlState) (y : String) (e : LayerEntry) (layer layer2 : Layer)
    (vis : Option String) (o : Rat) (msg : String)
    (l1 l2 : List String) (lid : String)
    (st st' : List (String × LayerEntry))
    (hnd : (storeKeys c.layerStates).Nodup)
    (hslider : c.userInteractingWithSlider = false)
    (hy : storeLookup c.layerStates y = some e)
    (hnc : e.isCustomLayer = false)
    (hbg : y ≠ "Background")
    (hlayer : envGetLayer env y = some layer)
    (hvis : layoutE y = Except.ok vis)
    (hop : getLayerOpacityE paintE y layer.type = Except.ok o)
    (hguard : c2.isStyleOperationInProgress = false)
    (hnew : (dedupKeepFirst (env.mapLayers.map Layer.id)).filter
      (newLayerFilter env c2.layerStates (isAutoDetectMode env c2.layerStates))
      = l1 ++ lid :: l2)
    (hst1 : (removedNativeIds env c2.layerStates).foldl storeDelete c2.layerStates = st)
    (haddok : addPhaseE env layoutE paintE l1 st = Except.ok st')
    (hlay2 : envGetLayer env lid = some layer2)
    (hthrow : getLayerOpacityE paintE lid layer2.type = Except.error msg) :
    storeLookup (updateLayerStatesFromMapE env layoutE paintE c).layerStates y =
      some { e with visible := decide (vis ≠ some "none"), opacity := o }
    ∧ checkForNewLayersE env layoutE paintE c2 = { c2 with layerStates := st' } := by
  constructor
  · unfold updateLayerStatesFromMapE
    rw [if_neg (by rw [hslider]; exact Bool.false_ne_true)]
    dsimp only
    obtain ⟨p1, p2, hsplit⟩ := List.append_of_mem (mem_keys_of_lookup _ y e hy)
    have hnods : (p1 ++ y :: p2).Nodup := by rw [← hsplit]; exact hnd
    obtain ⟨hp1, hyp2, hdisj⟩ := List.nodup_append.mp hnods
    have hynotp1 : y ∉ p1 := fun hm => hdisj hm (List.mem_cons_self _ _)
    have hynotp2 : y ∉ p2 := (List.nodup_cons.mp hyp2).1
    rw [hsplit, List.foldl_append, List.foldl_cons]
    have hmid : storeLookup (p1.foldl (updateOneLayerStateE env layoutE paintE)
        c.layerStates) y = some e := by
      rw [foldl_updateOneE_not_mem env layoutE paintE p1 _ y hynotp1]
      exact hy
    rw [updateOneLayerStateE_updates env layoutE paintE _ y e layer vis o hmid hnc hbg
        hlayer hvis hop,
      foldl_updateOneE_not_mem env layoutE paintE p2 _ y hynotp2,
      storeLookup_set, if_pos rfl]
  · unfold checkForNewLayersE
    rw [if_neg (by rw [hguard]; exact Bool.false_ne_true)]
    dsimp only
    rw [hnew, hst1, addPhaseE_append_ok env layoutE paintE l1 (lid :: l2) st st' haddok]
    have habort : addPhaseE env layoutE paintE (lid :: l2) st' = Except.error st' := by
      unfold addPhaseE
      rw [hlay2]
      dsimp only
      rw [hthrow]
    rw [habort]

/-- Witness for C8's amended theorem at concrete inputs. -/
theorem c8_outer_catch_aborts_pass_witness :
    storeLookup (updateLayerStatesFromMapE twoLayerEnv layoutOk paintFailAlpha
      twoLayerCtl).layerStates "beta" =
      some { visible := true, opacity := 0, name := "Beta", isCustomLayer := false,
             customLayerType := none }
    ∧ checkForNewLayersE twoLayerEnv layoutOk paintFailAlpha emptyCtl =
      { emptyCtl with layerStates := [] } :=
  c8_outer_catch_aborts_pass twoLayerEnv layoutOk paintFailAlpha twoLayerCtl emptyCtl
    "beta" { visible := true, opacity := 1, name := "Beta" }
    ⟨"beta", "fill", none⟩ ⟨"alpha", "fill", none⟩ none 0 "gone"
    [] ["beta"] "alpha" [] []
    (by decide) rfl (by decide) rfl (by decide) (by decide) rfl rfl
    rfl (by decide) rfl rfl rfl rfl

/-- C7 counterexample: writes addressed to the Background aggregate ARE
stored on the entry itself - `toggleBackgroundVisibility` overwrites the
entry field `visible` and `changeBackgroundOpacity` overwrites the entry
field `opacity` before fanning out, so the fields are not read-only
derived views. -/
theorem c7_background_readonly_counterexample :
    storeLookup bgState.layerStates "Background" =
      some { visible := true, opacity := 1, name := "Background" }
    ∧ storeLookup (toggleBackgroundVisibility bgEnv bgState false).1.layerStates
        "Background" =
      some { visible := false, opacity := 1, name := "Background" }
    ∧ storeLookup (changeBackgroundOpacity bgEnv bgState 0).1.layerStates
        "Background" =
      some { visible := true, opacity := 0, name := "Background" } := by
  decide

/-- C7 amended: writes addressed to the synthetic Background aggregate fan
out to every non-user-added (Background-classified) style layer, and the
checkbox state is a derived view of the member visibility cache (checked =
some member cached visible; indeterminate = some but not all) - but the
written and derived values are ALSO stored on the Background entry itself,
whose visible/opacity fields are therefore not read-only. -/
theorem c7_background_aggregate (env : Env) (c : ControlState)
    (e : LayerEntry) (v : Bool) (o : Rat)
    (hE : storeLookup c.layerStates "Background" = some e) :
    ((toggleBackgroundVisibility env c v).1.layerStates =
        storeSet c.layerStates "Background" { e with visible := v }
      ∧ (toggleBackgroundVisibility env c v).2 =
        (env.mapLayers.filter
          (fun l => !isUserAddedLayer env
            (storeSet c.layerStates "Background" { e with visible := v }) l.id)).map
          (fun l => (l.id, if v then "visible" else "none")))
    ∧ ((changeBackgroundOpacity env c o).1.layerStates =
        storeSet c.layerStates "Background" { e with opacity := o }
      ∧ (changeBackgroundOpacity env c o).2 =
        ((env.mapLayers.filter
          (fun l => !isUserAddedLayer env
            (storeSet c.layerStates "Background" { e with opacity := o }) l.id)).map
          (fun l => match envGetLayer env l.id with
            | some gl => setLayerOpacity l.id gl.type o
            | none => [])).flatten)
    ∧ ((updateBackgroundCheckboxState env c).2.1 =
        env.mapLayers.any (fun l => !isUserAddedLayer env c.layerStates l.id &&
          decide (bgVisGet c.backgroundLayerVisibility l.id = some true))
      ∧ (updateBackgroundCheckboxState env c).2.2 =
        (env.mapLayers.any (fun l => !isUserAddedLayer env c.layerStates l.id &&
          decide (bgVisGet c.backgroundLayerVisibility l.id = some true)) &&
         !(env.mapLayers.all (fun l => isUserAddedLayer env c.layerStates l.id ||
          ! decide (bgVisGet c.backgroundLayerVisibility l.id = some false))))
      ∧ (updateBackgroundCheckboxState env c).1.layerStates =
        storeSet c.layerStates "Background"
          { e with visible :=
              env.mapLayers.any (fun l => !isUserAddedLayer env c.layerStates l.id &&
                decide (bgVisGet c.backgroundLayerVisibility l.id = some true)) }) :=
  ⟨toggleBackgroundVisibility_spec env c e v hE,
   changeBackgroundOpacity_spec env c e o hE,
   updateBackgroundCheckboxState_spec env c e hE⟩

/-- Witness for C7's amended theorem at the concrete snapshot `bgEnv` and
state `bgState`. -/
theorem c7_background_aggregate_witness :
    storeLookup bgState.layerStates "Background" =
      some { visible := true, opacity := 1, name := "Background" }
    ∧ (toggleBackgroundVisibility bgEnv bgState false).1.layerStates =
      storeSet bgState.layerStates "Background"
        { visible := false, opacity := 1, name := "Background" }
    ∧ (toggleBackgroundVisibility bgEnv bgState false).2 =
      (bgEnv.mapLayers.filter
        (fun l => !isUserAddedLayer bgEnv
          (storeSet bgState.layerStates "Background"
            { visible := false, opacity := 1, name := "Background" }) l.id)).map
        (fun l => (l.id, if false then "visible" else "none")) :=
  ⟨by decide,
   (c7_background_aggregate bgEnv bgState
     { visible := true, opacity := 1, name := "Background" } false 0 (by decide)).1.1,
   (c7_background_aggregate bgEnv bgState
     { visible := true, opacity := 1, name := "Background" } false 0 (by decide)).1.2⟩

/-- C2 counterexample: the user toggles "alpha" at time 0 (guard up until
the 200 ms timeout) and the host notifies at time 0 (reconcile timer due
at 100, inside the guard window). The guarded pass performs zero store
writes - but after the guard is released ZERO deferred reconciliation
passes run, not exactly one: the mutation timeout only lowers the flag. -/
theorem c2_deferred_pass_counterexample :
    c2Scenario.ctl.isStyleOperationInProgress = true
    ∧ (drain mutEnv c2Scenario).ctl.layerStates = c2Scenario.ctl.layerStates
    ∧ (drain mutEnv c2Scenario).passesRun = 0
    ∧ (drain mutEnv c2Scenario).timers = []
    ∧ (drain mutEnv c2Scenario).ctl.isStyleOperationInProgress = false := by
  decide

/-- C2 amended: while the guard raised by a mutation is up, a
reconciliation pass triggered in that window performs zero layer-state
store writes (`checkForNewLayers` returns its input unchanged; only the
unguarded `updateLayerStatesFromMap` sync runs); but the timeout the
mutation schedules only lowers the guard, so when the notification's
reconcile timer fires inside the guard window, zero - not exactly one -
deferred reconciliation passes run after the guard is released. -/
theorem c2_mutation_guard_no_deferred_pass (env : Env) (c : ControlState)
    (s : Sys) (layerId : String) (visible : Bool) (t0 tn : Nat)
    (hc : c.isStyleOperationInProgress = true)
    (hempty : s.timers = [])
    (hb : layerId ≠ "Background")
    (hlt : tn + 100 < t0 + 200) :
    checkForNewLayers env c = c
    ∧ (drain env (notifySys tn (toggleLayerVisibilitySys t0 s layerId
        visible))).passesRun = s.passesRun
    ∧ (drain env (notifySys tn (toggleLayerVisibilitySys t0 s layerId
        visible))).ctl.isStyleOperationInProgress = false := by
  obtain ⟨hsg, hst, hsp⟩ := toggleLayerVisibilitySys_props t0 s layerId visible hb
  have hts : (notifySys tn (toggleLayerVisibilitySys t0 s layerId visible)).timers
      = [(t0 + 200, Cb.clearGuard), (tn + 100, Cb.reconcile)] := by
    show (toggleLayerVisibilitySys t0 s layerId visible).timers
        ++ [(tn + 100, Cb.reconcile)] = _
    rw [hst, hempty]
    rfl
  have hpop1 : popEarliest (notifySys tn
      (toggleLayerVisibilitySys t0 s layerId visible)).timers
      = some ((tn + 100, Cb.reconcile), [(t0 + 200, Cb.clearGuard)]) := by
    rw [hts]
    simp only [popEarliest]
    rw [if_neg (by omega)]
  have hA : drain env (notifySys tn (toggleLayerVisibilitySys t0 s layerId visible))
      = drainFuel env 2 (notifySys tn (toggleLayerVisibilitySys t0 s layerId visible)) := by
    unfold drain
    rw [hts]
    rfl
  have hB : drainFuel env 2 (notifySys tn (toggleLayerVisibilitySys t0 s layerId visible))
      = drainFuel env 1 (fireCb env
          { notifySys tn (toggleLayerVisibilitySys t0 s layerId visible) with
            timers := [(t0 + 200, Cb.clearGuard)] } Cb.reconcile) :=
    drainFuel_step env 1 (notifySys tn (toggleLayerVisibilitySys t0 s layerId visible))
      (tn + 100, Cb.reconcile) [(t0 + 200, Cb.clearGuard)] hpop1
  have hC : drainFuel env 1 (fireCb env
        { notifySys tn (toggleLayerVisibilitySys t0 s layerId visible) with
          timers := [(t0 + 200, Cb.clearGuard)] } Cb.reconcile)
      = drainFuel env 1
          { notifySys tn (toggleLayerVisibilitySys t0 s layerId visible) with
            timers := [(t0 + 200, Cb.clearGuard)]
            ctl := updateLayerStatesFromMap env
              (notifySys tn (toggleLayerVisibilitySys t0 s layerId visible)).ctl } :=
    congrArg (drainFuel env 1)
      (fireCb_reconcile_guard_true env
        { notifySys tn (toggleLayerVisibilitySys t0 s layerId visible) with
          timers := [(t0 + 200, Cb.clearGuard)] } hsg)
  have hD : drainFuel env 1
        { notifySys tn (toggleLayerVisibilitySys t0 s layerId visible) with
          timers := [(t0 + 200, Cb.clearGuard)]
          ctl := updateLayerStatesFromMap env
            (notifySys tn (toggleLayerVisibilitySys t0 s layerId visible)).ctl }
      = drainFuel env 0 (fireCb env
          { notifySys tn (toggleLayerVisibilitySys t0 s layerId visible) with
            timers := ([] : List (Nat × Cb))
            ctl := updateLayerStatesFromMap env
              (notifySys tn (toggleLayerVisibilitySys t0 s layerId visible)).ctl }
          Cb.clearGuard) :=
    drainFuel_step env 0
      { notifySys tn (toggleLayerVisibilitySys t0 s layerId visible) with
        timers := [(t0 + 200, Cb.clearGuard)]
        ctl := updateLayerStatesFromMap env
          (notifySys tn (toggleLayerVisibilitySys t0 s layerId visible)).ctl }
      (t0 + 200, Cb.clearGuard) [] rfl
  have hdrain := hA.trans (hB.trans (hC.trans hD))
  refine ⟨checkForNewLayers_guard_up env c hc, ?_, ?_⟩
  · exact (congrArg Sys.passesRun hdrain).trans hsp
  · exact (congrArg (fun x => x.ctl.isStyleOperationInProgress) hdrain).trans rfl

/-- Witness for C2's amended theorem at the concrete mutation scenario. -/
theorem c2_mutation_guard_no_deferred_pass_witness :
    ({ twoLayerCtl with isStyleOperationInProgress := true } :
        ControlState).isStyleOperationInProgress = true
    ∧ checkForNewLayers mutEnv { twoLayerCtl with isStyleOperationInProgress := true }
        = { twoLayerCtl with isStyleOperationInProgress := true }
    ∧ (drain mutEnv (notifySys 0 (toggleLayerVisibilitySys 0 mutSys "alpha"
        false))).passesRun = mutSys.passesRun :=
  ⟨by decide,
   (c2_mutation_guard_no_deferred_pass mutEnv
      { twoLayerCtl with isStyleOperationInProgress := true } mutSys "alpha" false 0 0
      (by decide) rfl (by decide) (by decide)).1,
   (c2_mutation_guard_no_deferred_pass mutEnv
      { twoLayerCtl with isStyleOperationInProgress := true } mutSys "alpha" false 0 0
      (by decide) rfl (by decide) (by decide)).2.1⟩

/-- C9 counterexample: two notifications in one burst (times 0 and 10,
both before the first timer is due at 100) schedule two independent
reconcile timers - nothing is reset - and draining fires the pass twice,
not once. -/
theorem c9_debounce_counterexample :
    (notifySys 10 (notifySys 0 burstSys)).timers =
      [(100, Cb.reconcile), (110, Cb.reconcile)]
    ∧ (drain idleEnv (notifySys 10 (notifySys 0 burstSys))).passesRun = 2 := by
  decide

/-- C9 amended: the pre-reconciliation delay is a plain `setTimeout` - no
timer handle is kept and nothing is ever cleared or reset - so each
notification appends an independent reconcile timer, and draining a queue
of n such timers with the guard down runs the pass n times (one counted
pass per timer), not once per burst. -/
theorem c9_burst_schedules_additional_runs (env : Env) (s : Sys)
    (hg : s.ctl.isStyleOperationInProgress = false)
    (hall : ∀ t ∈ s.timers, t.2 = Cb.reconcile) :
    (∀ now : Nat, (notifySys now s).timers = s.timers ++ [(now + 100, Cb.reconcile)])
    ∧ (drain env s).passesRun = s.passesRun + s.timers.length
    ∧ (drain env s).timers = [] := by
  obtain ⟨h1, h2, _⟩ := drainFuel_reconcile_count env s.timers.length s
    (Nat.le_refl _) hg hall
  exact ⟨fun _ => rfl, h1, h2⟩

/-- Witness for C9's amended theorem at the two-notification burst. -/
theorem c9_burst_schedules_additional_runs_witness :
    (notifySys 10 (notifySys 0 burstSys)).ctl.isStyleOperationInProgress = false
    ∧ (drain idleEnv (notifySys 10 (notifySys 0 burstSys))).passesRun =
        (notifySys 10 (notifySys 0 burstSys)).passesRun +
          (notifySys 10 (notifySys 0 burstSys)).timers.length :=
  ⟨by decide,
   (c9_burst_schedules_additional_runs idleEnv (notifySys 10 (notifySys 0 burstSys))
     (by decide) (by decide)).2.1⟩
